import Mathlib

/-!
# Verification of the TMDBintros movie-trailer pipeline

Shallow embedding of the discovery / filtering / reconciliation /
acquisition / cleanup core of the repository (mainly
`tmdb_upcoming.py`, with the folder-name regex shared by
`tmdb_trailer_downloader.py` and `tmdb_monitor.py`, and the retry
configuration of `config_manager.py`).

Modelling conventions:
* Python dicts for movies become a fixed record (`Movie`); the
  `dict.get` defaults of the source are noted field by field.
* Floats (`popularity`) become `Rat`; no float rounding is exercised by
  the code paths modelled here (only comparisons and negation).
* Datetimes are modelled at day granularity as `Int` (the code only
  compares dates and takes `(today - release_date).days`).
* `requests` / `yt-dlp` / Radarr calls are an explicit environment
  (`Env`) of pure functions; an API error is `none` / `false`.
* The filesystem is an explicit state (`FS`): a list of directories and
  a list of files, paths being component lists.
* Fallible operations return `Option`; a Python exception that escapes
  the function under consideration is `none`.

Note that `TMDBUpcomingTrailerDownloader` defines
`get_filtered_upcoming_movies` twice (lines 256 and 384 of
`tmdb_upcoming.py`); per Python class-body semantics the second
definition is the one bound on the class, so `getFilteredUpcomingMovies`
below embeds the second definition (lines 384-422).  The first, shadowed
definition's helper `_get_radarr_wanted_movies` (lines 290-307) is still
real code and is embedded as `getRadarrWantedMovies`.
-/

namespace Tmdb

/-! ## Basic data -/

/-- Release-date field of a movie dict / of `movie_info.json`:
either falsy (absent key or empty string), a string
`datetime.strptime(-, "%Y-%m-%d")` rejects, or a parsed date
(day number, with the raw string kept for `release_date[:4]`). -/
inductive DateField where
  | missing : DateField
  | unparsable : String → DateField
  | parsed : String → Int → DateField
deriving DecidableEq, Repr

/-- The raw string of the field (`movie.get('release_date', '')`). -/
def DateField.raw : DateField → String
  | .missing => ""
  | .unparsable s => s
  | .parsed s _ => s

/-- A movie dict as used by the pipeline.  `id` is `movie.get('id')`
(may be absent), `popularity` is `movie.get('popularity', 0)`,
`belongs_to_collection` is the truthiness of that key. -/
structure Movie where
  id : Option Nat
  title : String
  popularity : Rat
  release : DateField
  overview : String
  belongs_to_collection : Bool
deriving DecidableEq, Repr

/-- A TMDB video entry (`/movie/{id}/videos` result item). -/
structure Video where
  name : String
  key : String
  vtype : String
  site : String
deriving DecidableEq, Repr

/-- A Radarr movie record (fields the pipeline reads). -/
structure RadarrMovie where
  tmdbId : Option Nat
  hasFile : Bool
  path : Option (List String)
deriving DecidableEq, Repr

/-- Pipeline configuration, with the fields `tmdb_upcoming.py`
dereferences on `self.config` / `self.radarr_config` plus the library
path.  (The quality/vote/runtime knobs only feed API request parameters
and are absorbed into the environment's `discover` answers.) -/
structure Config where
  moviesPath : List String
  days_ahead : Int
  popularity_threshold : Rat
  max_movies : Nat
  max_trailers_per_movie : Nat
  integration_mode : String
  filter_ratings : List String
  exclude_ratings : List String
  filter_studios : List String
  exclude_studios : List String
  filter_directors : List String
  filter_actors : List String
  min_budget : Rat
  franchise_only : Bool
  original_only : Bool
deriving DecidableEq, Repr

/-- The download options of `config_manager.DownloadConfig`
(lines 54-65) that concern retrying. -/
structure DownloadConfig where
  retry_attempts : Nat
  retry_delay : Nat
deriving DecidableEq, Repr

/-- Default `retry_attempts` of `DownloadConfig`. -/
def defaultRetryAttempts : Nat := 3

/-- Default `retry_delay` of `DownloadConfig`. -/
def defaultRetryDelay : Nat := 5

/-- The external world: Radarr, TMDB and yt-dlp, plus the clock.
`discover page` is the body of one `/discover/movie` request (`none` =
`RequestException`); `details` is `/movie/{id}`; `videosOf` is
`/movie/{id}/videos`; `fetch url k` tells whether the `k`-th attempt of
`yt-dlp` on `url` would succeed (the code only ever performs attempt
`0`; the index exists so that retry behaviour can be stated). -/
structure Env where
  hasRadarr : Bool
  today : Int
  nowIso : String
  wanted : List RadarrMovie
  radarrByTmdbId : Option Nat → Option RadarrMovie
  discover : Nat → Option (List Movie)
  details : Nat → Option Movie
  videosOf : Option Nat → Option (List Video)
  fetch : String → Nat → Bool

/-! ## A stable insertion sort

Python's `list.sort` / `sorted` are stable; a stable sort is determined
by its (total pre-)order, so this insertion sort embeds them. -/

/-- Insert `a` before the first element `b` with `le a b`. -/
def stableInsert (le : α → α → Bool) (a : α) : List α → List α
  | [] => [a]
  | b :: bs => if le a b then a :: b :: bs else b :: stableInsert le a bs

/-- Stable sort: elements comparing equal keep their original order. -/
def stableSort (le : α → α → Bool) : List α → List α
  | [] => []
  | a :: as => stableInsert le a (stableSort le as)

/-! ## Filter engine (`_passes_all_filters` and friends) -/

/-- Substring test (Python `needle in haystack`). -/
def listIsSub (needle : List Char) : List Char → Bool
  | [] => needle.isEmpty
  | c :: t => needle.isPrefixOf (c :: t) || listIsSub needle t

/-- Python `indicator in title`. -/
def strContains (hay needle : String) : Bool := listIsSub needle.data hay.data

/-- The sequel-marker tokens of `_passes_advanced_filters`. -/
def sequelIndicators : List String := ["2", "ii", "sequel", "part", ":"]

/-- `_passes_quality_filters`: vote filtering already happened in the
API parameters; the function body is `return True`. -/
def passesQualityFilters (_cfg : Config) (_m : Movie) : Bool := true

/-- `_passes_content_filters`: the rating filter is unimplemented
(`pass`); the function returns `True`. -/
def passesContentFilters (_cfg : Config) (_m : Movie) : Bool := true

/-- `_passes_production_filters`: returns `True` when no
studio/director/actor filter is configured, and also `True` otherwise
(the company filter is unimplemented, `pass`). -/
def passesProductionFilters (cfg : Config) (_m : Movie) : Bool :=
  if !(!cfg.filter_studios.isEmpty || !cfg.exclude_studios.isEmpty ||
       !cfg.filter_directors.isEmpty || !cfg.filter_actors.isEmpty) then
    true
  else
    true

/-- `_passes_advanced_filters`: budget check unimplemented;
franchise-only requires `belongs_to_collection`; original-only rejects
when the lowercased title contains a sequel marker. -/
def passesAdvancedFilters (cfg : Config) (m : Movie) : Bool :=
  (if cfg.franchise_only then m.belongs_to_collection else true) &&
  (if cfg.original_only then
     !(sequelIndicators.any fun ind => strContains m.title.toLower ind)
   else true)

/-- `_passes_all_filters` (lines 176-203): popularity threshold first,
then the category checks. -/
def passesAllFilters (cfg : Config) (m : Movie) : Bool :=
  if m.popularity < cfg.popularity_threshold then false
  else
    passesQualityFilters cfg m && passesContentFilters cfg m &&
    passesProductionFilters cfg m && passesAdvancedFilters cfg m

/-! ## Discovery (`get_upcoming_movies`) -/

/-- Popularity-descending order used by
`all_movies.sort(key=popularity, reverse=True)` (stable). -/
def popDescLe (a b : Movie) : Bool := decide (b.popularity ≤ a.popularity)

/-- The page loop of `get_upcoming_movies`: pages `1..pages`, stop on a
request error or an empty (pre-filter) result page, keep the movies
passing `_passes_all_filters`. -/
def fetchPagesAux (cfg : Config) (env : Env) : Nat → Nat → List Movie
  | _, 0 => []
  | page, n + 1 =>
    match env.discover page with
    | none => []
    | some [] => []
    | some ms =>
      ms.filter (passesAllFilters cfg) ++ fetchPagesAux cfg env (page + 1) n

/-- `get_upcoming_movies(pages=5)`: page loop, stable popularity-descending
sort, truncation to `max_movies`. -/
def getUpcomingMovies (cfg : Config) (env : Env) : List Movie :=
  (stableSort popDescLe (fetchPagesAux cfg env 1 5)).take cfg.max_movies

/-! ## Tracker resolution and reconciliation -/

/-- `_is_upcoming_movie`: falsy or unparsable release date fails; else
`today <= movie_date <= today + days_ahead` (day granularity). -/
def isUpcomingMovie (cfg : Config) (env : Env) (m : Movie) : Bool :=
  match m.release with
  | .missing => false
  | .unparsable _ => false
  | .parsed _ d => decide (env.today ≤ d) && decide (d ≤ env.today + cfg.days_ahead)

/-- `_get_radarr_wanted_movies` (lines 290-307): for each wanted entry
with a truthy `tmdbId` (so neither absent nor `0`), fetch the TMDB
details and keep it when `_is_upcoming_movie`; resolution failures are
dropped silently. -/
def getRadarrWantedMovies (cfg : Config) (env : Env) : List Movie :=
  if !env.hasRadarr then []
  else
    env.wanted.foldr
      (fun rm acc =>
        match rm.tmdbId with
        | some tid =>
          if tid ≠ 0 then
            match env.details tid with
            | some md => if isUpcomingMovie cfg env md then md :: acc else acc
            | none => acc
          else acc
        | none => acc)
      []

/-- The sort key order of the effective hybrid branch (line 412-415):
`(0 if id in radarr_tmdb_ids else 1, -popularity)`, lexicographic. -/
def radarrPriorityLe (ids : List (Option Nat)) (a b : Movie) : Bool :=
  let ra : Nat := if ids.contains a.id then 0 else 1
  let rb : Nat := if ids.contains b.id then 0 else 1
  if ra < rb then true
  else if rb < ra then false
  else decide (b.popularity ≤ a.popularity)

/-- `get_filtered_upcoming_movies` — the SECOND definition
(lines 384-422), which is the one Python binds on the class:
* no Radarr service or `upcoming` mode: TMDB discovery;
* `radarr_only`: discovery results filtered to ids on the wanted list;
* `hybrid`: discovery results stably re-sorted, wanted ids first,
  ties by popularity descending;
* unknown mode: warning, then discovery results. -/
def getFilteredUpcomingMovies (cfg : Config) (env : Env) : List Movie :=
  if !env.hasRadarr || cfg.integration_mode = "upcoming" then
    getUpcomingMovies cfg env
  else if cfg.integration_mode = "radarr_only" then
    let radarrMovies := env.wanted
    let upcoming := getUpcomingMovies cfg env
    upcoming.filter fun m => radarrMovies.any fun rm => rm.tmdbId == m.id
  else if cfg.integration_mode = "hybrid" then
    let upcoming := getUpcomingMovies cfg env
    let ids := env.wanted.map (·.tmdbId)
    stableSort (radarrPriorityLe ids) upcoming
  else
    getUpcomingMovies cfg env

/-! ## Filesystem model -/

/-- Filesystem state: existing directories and files (path, content).
Paths are component lists rooted at an abstract root. -/
structure FS where
  dirs : List (List String)
  files : List (List String × String)
deriving DecidableEq, Repr

def FS.isDir (fs : FS) (p : List String) : Bool := fs.dirs.contains p

def FS.fileAt (fs : FS) (p : List String) : Bool := fs.files.any fun f => f.1 == p

/-- `Path.exists()`. -/
def FS.pathExists (fs : FS) (p : List String) : Bool := fs.isDir p || fs.fileAt p

/-- `q` is a direct child of `p`. -/
def isChildOf (p q : List String) : Bool :=
  q.length == p.length + 1 && q.take p.length == p

/-- `any(p.iterdir())`: `p` has at least one direct child entry. -/
def FS.hasChild (fs : FS) (p : List String) : Bool :=
  fs.dirs.any (isChildOf p) || fs.files.any fun f => isChildOf p f.1

def FS.addDir (fs : FS) (p : List String) : FS :=
  if fs.isDir p then fs else ⟨p :: fs.dirs, fs.files⟩

def mkdirAux (fs : FS) (done : List String) : List String → FS
  | [] => fs
  | c :: cs => mkdirAux (fs.addDir (done ++ [c])) (done ++ [c]) cs

/-- `p.mkdir(parents=True, exist_ok=True)`: create every missing
ancestor and `p` itself. -/
def FS.mkdirAll (fs : FS) (p : List String) : FS := mkdirAux fs [] p

/-- `mkdir(parents=True, exist_ok=True)` raises when some (non-strict)
ancestor of `p` exists as a regular file; this test says it will not. -/
def FS.mkdirOk (fs : FS) (p : List String) : Bool :=
  (List.range p.length).all fun i => !fs.fileAt (p.take (i + 1))

/-- `path.write_text(content)`: create or overwrite. -/
def FS.writeFile (fs : FS) (p : List String) (content : String) : FS :=
  ⟨fs.dirs, (p, content) :: fs.files.filter fun f => f.1 ≠ p⟩

/-- `p.rmdir()`: succeeds only on an existing empty directory,
otherwise raises (`none`). -/
def FS.rmdir (fs : FS) (p : List String) : Option FS :=
  if fs.isDir p && !fs.hasChild p then some ⟨fs.dirs.erase p, fs.files⟩ else none

/-! ## Acquisition orchestrator (`download_upcoming_trailers`) -/

/-- Per-movie loop outcome: exactly one of the three counters. -/
inductive Outcome where
  | processed : Outcome
  | skipped : Outcome
  | error : Outcome
deriving DecidableEq, Repr

/-- Run statistics, as returned by `download_upcoming_trailers`. -/
structure Stats where
  total : Nat
  processed : Nat
  skipped : Nat
  errors : Nat
deriving DecidableEq, Repr

/-- `year = release_date[:4] if release_date else 'Unknown'`. -/
def movieYearStr (m : Movie) : String :=
  if m.release.raw = "" then "Unknown" else m.release.raw.take 4

/-- The staging area `<library>/_upcoming_trailers`. -/
def upcomingPath (cfg : Config) : List String :=
  cfg.moviesPath ++ ["_upcoming_trailers"]

/-- Movie folder name `Title (Year)`. -/
def movieFolderName (m : Movie) : String :=
  m.title ++ " (" ++ movieYearStr m ++ ")"

/-- `should_download_to_radarr_folder` (lines 424-438): the Radarr
record must exist, have a file, and its path must be truthy and exist
on disk. -/
def shouldDownloadToRadarrFolder (env : Env) (fs : FS) (m : Movie) :
    Option (List String) :=
  if !env.hasRadarr then none
  else
    match env.radarrByTmdbId m.id with
    | some rm =>
      if rm.hasFile then
        match rm.path with
        | some p => if fs.pathExists p then some p else none
        | none => none
      else none
    | none => none

/-- The (radarr override, target trailers directory) pair computed in
lines 471-480. -/
def targetPathOf (cfg : Config) (env : Env) (fs : FS) (m : Movie) :
    Option (List String) × List String :=
  match shouldDownloadToRadarrFolder env fs m with
  | some p => (some p, p ++ ["trailers"])
  | none => (none, upcomingPath cfg ++ [movieFolderName m, "trailers"])

/-- `get_movie_trailers` of `tmdb_trailer_downloader.py` (lines 85-114):
request error gives `[]`, else keep YouTube entries of type Trailer. -/
def getMovieTrailers (env : Env) (mid : Option Nat) : List Video :=
  match env.videosOf mid with
  | none => []
  | some vs => vs.filter fun v => v.vtype == "Trailer" && v.site == "YouTube"

def trailerUrl (key : String) : String :=
  "https://www.youtube.com/watch?v=" ++ key

/-- One trailer slot as the code performs it: a single call to
`download_trailer` (one `yt-dlp` invocation), i.e. attempt `0` only.
Returns (success, number of attempts made). -/
def downloadSlotCode (attempt : Nat → Bool) : Bool × Nat := (attempt 0, 1)

/-- The downloaded file path for slot `j` (0-based):
`target / "{title}-trailer-{j+1}.%(ext)s"`.  The extension template is
substituted by `yt-dlp` externally; only the file's existence matters
here. -/
def slotFile (target : List String) (title : String) (j : Nat) : List String :=
  target ++ [title ++ "-trailer-" ++ toString (j + 1) ++ ".%(ext)s"]

/-- The download loop (lines 501-513) over the first
`max_trailers_per_movie` trailers: each success writes the slot file
and adds one to the per-target counter. -/
def runDownloads (env : Env) (target : List String) (title : String) :
    Nat → List Video → FS → FS × Nat
  | _, [], fs => (fs, 0)
  | j, v :: vs, fs =>
    if (downloadSlotCode (env.fetch (trailerUrl v.key))).1 then
      let fs1 := fs.writeFile (slotFile target title j) "video"
      let r := runDownloads env target title (j + 1) vs fs1
      (r.1, r.2 + 1)
    else
      runDownloads env target title (j + 1) vs fs

/-- The `movie_info.json` content (models `json.dumps(movie_info)`;
the rendering is a fixed readable encoding of the same fields). -/
def movieInfoJson (env : Env) (m : Movie) (cnt : Nat) : String :=
  "title=" ++ m.title ++ ";year=" ++ movieYearStr m ++
  ";release_date=" ++ m.release.raw ++
  ";popularity=" ++ toString m.popularity ++
  ";overview=" ++ m.overview ++
  ";tmdb_id=" ++ (match m.id with | some n => toString n | none => "null") ++
  ";downloaded_at=" ++ env.nowIso ++
  ";trailers_count=" ++ toString cnt

/-- The `try:` block of the per-movie loop (lines 487-541).
An exception caught by `except` (line 542) yields `Outcome.error` with
the state as mutated so far. -/
def processMovieTry (cfg : Config) (env : Env) (fs : FS) (m : Movie)
    (rp : Option (List String)) (target : List String) : FS × Outcome :=
  if !fs.mkdirOk target then (fs, .error)
  else
    let fs1 := fs.mkdirAll target
    let trailers := getMovieTrailers env m.id
    if trailers.isEmpty then (fs1, .error)
    else
      let dl := runDownloads env target m.title 0
        (trailers.take cfg.max_trailers_per_movie) fs1
      if 0 < dl.2 then
        match rp with
        | none =>
          ((dl.1).writeFile (target.dropLast ++ ["movie_info.json"])
            (movieInfoJson env m dl.2), .processed)
        | some _ => (dl.1, .processed)
      else
        match (if (dl.1).pathExists target then (dl.1).rmdir target
               else some dl.1) with
        | none => (dl.1, .error)
        | some fs3 =>
          match rp with
          | some _ => (fs3, .error)
          | none =>
            if fs3.pathExists target.dropLast then
              match fs3.rmdir target.dropLast with
              | none => (fs3, .error)
              | some fs4 => (fs4, .error)
            else (fs3, .error)

/-- One iteration of the per-movie loop (lines 462-544).  The
already-has-trailers check (line 482) runs outside the `try:` block, so
`iterdir()` on a target that exists as a regular file aborts the whole
run (`none`). -/
def processMovie (cfg : Config) (env : Env) (fs : FS) (m : Movie) :
    Option (FS × Outcome) :=
  let tp := targetPathOf cfg env fs m
  if fs.pathExists tp.2 then
    if !fs.isDir tp.2 then none
    else if fs.hasChild tp.2 then some (fs, .skipped)
    else some (processMovieTry cfg env fs m tp.1 tp.2)
  else some (processMovieTry cfg env fs m tp.1 tp.2)

/-- The whole per-movie loop, returning the outcome of each iteration. -/
def runMovies (cfg : Config) (env : Env) : FS → List Movie → Option (FS × List Outcome)
  | fs, [] => some (fs, [])
  | fs, m :: ms =>
    match processMovie cfg env fs m with
    | none => none
    | some (fs1, o) =>
      match runMovies cfg env fs1 ms with
      | none => none
      | some (fs2, os) => some (fs2, o :: os)

/-- The README content written by `create_upcoming_structure`
(a deterministic rendering of the template). -/
def readmeContent (cfg : Config) (env : Env) : String :=
  "# Upcoming Movie Trailers; generated=" ++ env.nowIso ++
  ";days_ahead=" ++ toString cfg.days_ahead ++
  ";min_popularity=" ++ toString cfg.popularity_threshold ++
  ";max_trailers=" ++ toString cfg.max_trailers_per_movie

/-- `create_upcoming_structure` (lines 340-382): ensure the staging
directory, write `README.md` only if absent.  `none` when the `mkdir`
raises (an ancestor is a regular file) — this call is outside any
`try:`. -/
def createUpcomingStructure (cfg : Config) (env : Env) (fs : FS) : Option FS :=
  if !fs.mkdirOk (upcomingPath cfg) then none
  else
    let fs1 := fs.mkdirAll (upcomingPath cfg)
    let readme := upcomingPath cfg ++ ["README.md"]
    if fs1.pathExists readme then some fs1
    else some (fs1.writeFile readme (readmeContent cfg env))

def countOutcome (o : Outcome) (os : List Outcome) : Nat :=
  os.countP fun x => x == o

/-- `download_upcoming_trailers` (lines 440-547).  `stats` counts the
per-iteration outcomes (the source increments the three counters inside
the loop; the list of outcomes is kept alongside for the statements). -/
def downloadUpcomingTrailers (cfg : Config) (env : Env) (fs : FS) :
    Option (FS × Stats × List Outcome) :=
  match createUpcomingStructure cfg env fs with
  | none => none
  | some fs1 =>
    let ms := getFilteredUpcomingMovies cfg env
    if ms.isEmpty then some (fs1, ⟨0, 0, 0, 0⟩, [])
    else
      match runMovies cfg env fs1 ms with
      | none => none
      | some (fs2, os) =>
        some (fs2, ⟨ms.length, countOutcome .processed os,
          countOutcome .skipped os, countOutcome .error os⟩, os)

/-! ## Lifecycle sweeper (`cleanup_old_upcoming`) -/

/-- The `movie_info.json` of one staging entry, as the sweeper sees it:
absent, unreadable (`json.load` raised), or loaded with a release-date
field. -/
inductive InfoFile where
  | absent : InfoFile
  | corrupt : InfoFile
  | good : DateField → InfoFile
deriving DecidableEq, Repr

/-- One entry of the `_upcoming_trailers` directory listing. -/
structure UpEntry where
  name : String
  isDir : Bool
  info : InfoFile
deriving DecidableEq, Repr

/-- The removal condition of the sweeper: a directory other than
`README.md` with a loaded, parseable release date whose
`days_since_release = today - release_date` strictly exceeds
`days_old`. -/
def entryExpired (today days_old : Int) (e : UpEntry) : Bool :=
  e.isDir && e.name ≠ "README.md" &&
  (match e.info with
   | .good (.parsed _ d) => decide (days_old < today - d)
   | _ => false)

/-- The sweeper loop (lines 601-629): each entry is skipped (not a dir,
`README.md`, missing info file, unreadable JSON, falsy release date,
unparsable release date) or, when expired, `shutil.rmtree`-removed and
counted. -/
def cleanupLoop (today days_old : Int) : List UpEntry → List UpEntry × Nat
  | [] => ([], 0)
  | e :: es =>
    let rest := cleanupLoop today days_old es
    if !e.isDir || e.name = "README.md" then (e :: rest.1, rest.2)
    else
      match e.info with
      | .absent => (e :: rest.1, rest.2)
      | .corrupt => (e :: rest.1, rest.2)
      | .good .missing => (e :: rest.1, rest.2)
      | .good (.unparsable _) => (e :: rest.1, rest.2)
      | .good (.parsed _ d) =>
        if decide (days_old < today - d) then (rest.1, rest.2 + 1)
        else (e :: rest.1, rest.2)

/-- `cleanup_old_upcoming(days_old)` (lines 586-631): early return when
the staging directory does not exist; else run the loop, log the count.
The Python function body contains no `return` statement, so the value
returned to the caller is `None`: the third component.  Result:
(surviving entries, counted removals as logged, returned value). -/
def cleanupOldUpcoming (upExists : Bool) (today days_old : Int)
    (es : List UpEntry) : List UpEntry × Nat × Option Nat :=
  if !upExists then (es, 0, none)
  else
    let r := cleanupLoop today days_old es
    (r.1, r.2, none)

/-! ## Folder-name regex (`^(.+?)\s*\((\d{4})\).*$`)

Shared verbatim by `scan_existing_movies` (tmdb_trailer_downloader.py
line 235) and `check_new_movie` (tmdb_monitor.py line 38), applied with
`re.match`.  ASCII model of `\s` and `\d`; `.` does not match a
newline; `$` also matches before one final newline. -/

/-- `\s` (ASCII). -/
def pyWs (c : Char) : Bool :=
  c = ' ' || c = '\t' || c = '\n' || c = '\r' || c = '\x0b' || c = '\x0c'

/-- `\d` (ASCII). -/
def pyDigit (c : Char) : Bool := '0' ≤ c && c ≤ '9'

def digitVal (c : Char) : Nat := c.toNat - 48

/-- Length of the maximal whitespace run at the head. -/
def wsCount : List Char → Nat
  | [] => 0
  | c :: cs => if pyWs c then wsCount cs + 1 else 0

/-- Try to match `\s*\((\d{4})\)` at the head of `rest`; on success
return the year and the characters after the closing parenthesis.
(`\s*` backtracking is vacuous here: `(` is not whitespace, so the
parenthesis can only sit right after the maximal whitespace run.) -/
def checkFrom (rest : List Char) : Option (Nat × List Char) :=
  match rest.drop (wsCount rest) with
  | '(' :: d1 :: d2 :: d3 :: d4 :: ')' :: r3 =>
    if pyDigit d1 && pyDigit d2 && pyDigit d3 && pyDigit d4 then
      some (digitVal d1 * 1000 + digitVal d2 * 100 + digitVal d3 * 10 +
        digitVal d4, r3)
    else none
  | _ => none

/-- `.*$` on the remainder: no newline, except possibly one final one. -/
def tailOk (l : List Char) : Bool :=
  match l.getLast? with
  | some c =>
    if c = '\n' then l.dropLast.all fun x => x ≠ '\n'
    else l.all fun x => x ≠ '\n'
  | none => true

/-- Non-greedy search for the shortest title group: `acc` is the title
matched so far, `rest` the remaining input.  Stops for good at a
newline (the title group `(.+?)` cannot cross it). -/
def scanMatch (acc : List Char) : List Char → Option (List Char × Nat)
  | [] => none
  | c :: rs =>
    if c = '\n' then none
    else
      match checkFrom rs with
      | some (y, rem) =>
        if tailOk rem then some (acc ++ [c], y) else scanMatch (acc ++ [c]) rs
      | none => scanMatch (acc ++ [c]) rs

/-- Python `str.strip()` (ASCII whitespace). -/
def stripChars (l : List Char) : List Char :=
  ((l.dropWhile pyWs).reverse.dropWhile pyWs).reverse

def pyStrip (s : String) : String := String.mk (stripChars s.data)

/-- The folder-name parse:
`match = re.match(r'^(.+?)\s*\((\d{4})\).*$', name)`, returning
`(match.group(1).strip(), int(match.group(2)))` on success. -/
def parseMovieFolder (name : String) : Option (String × Nat) :=
  match scanMatch [] name.data with
  | some (t, y) => some (pyStrip (String.mk t), y)
  | none => none

/-- The pattern of the claim, as a plain decomposition: a non-empty
title segment (no newline), optional whitespace, a four-digit year in
parentheses, then anything (`.*$`). -/
def matchesMoviePattern (name : String) : Prop :=
  ∃ (t w : List Char) (d1 d2 d3 d4 : Char) (rest : List Char),
    name.data = t ++ w ++ '(' :: d1 :: d2 :: d3 :: d4 :: ')' :: rest ∧
    t ≠ [] ∧ (∀ c ∈ t, c ≠ '\n') ∧ (∀ c ∈ w, pyWs c = true) ∧
    pyDigit d1 = true ∧ pyDigit d2 = true ∧ pyDigit d3 = true ∧
    pyDigit d4 = true ∧ tailOk rest = true

/-! ## Claim-side definitions

The following definitions follow the WORDING of the specification, for
comparison with the embedded source above. -/

/-- Following the spec wording of C4: a slot is attempted up to
`retry` times (with `retry_delay` seconds in between, not modelled),
stopping at the first success; returns (success, attempts made). -/
def downloadSlotClaimAux (attempt : Nat → Bool) : Nat → Nat → Bool × Nat
  | k, 0 => (false, k)
  | k, n + 1 =>
    if attempt k then (true, k + 1) else downloadSlotClaimAux attempt (k + 1) n

/-- Following the spec wording of C4. -/
def downloadSlotClaim (retry : Nat) (attempt : Nat → Bool) : Bool × Nat :=
  downloadSlotClaimAux attempt 0 retry

/-- Keep the first occurrence of each external id. -/
def dedupById (seen : List (Option Nat)) : List Movie → List Movie
  | [] => []
  | m :: ms =>
    if seen.contains m.id then dedupById seen ms
    else m :: dedupById (m.id :: seen) ms

/-- Whether `m` is tracker-sourced relative to the resolved list. -/
def trackerFirstLe (tr : List Movie) (a b : Movie) : Bool :=
  let ra : Nat := if tr.any (fun t => t.id == a.id) then 0 else 1
  let rb : Nat := if tr.any (fun t => t.id == b.id) then 0 else 1
  if ra < rb then true
  else if rb < ra then false
  else decide (b.popularity ≤ a.popularity)

/-- Following the spec wording of C2 (`hybrid`): union of catalog
discovery and tracker-resolved candidates, deduplicated by external id
(first occurrence wins), tracker-sourced candidates before catalog-only
ones with popularity-descending tie-break, capped to `max_movies`.
Tracker entries are listed first so that their occurrence is the one
kept. -/
def hybridReconcileClaim (cfg : Config) (env : Env) : List Movie :=
  let tr := getRadarrWantedMovies cfg env
  let cat := getUpcomingMovies cfg env
  (stableSort (trackerFirstLe tr) (dedupById [] (tr ++ cat))).take cfg.max_movies

/-! ## Auxiliary predicates for the statements -/

/-- A file (with some content) exists at `q`. -/
def hasFilePathB (fs : FS) (q : List String) : Bool :=
  fs.files.any fun f => f.1 == q

/-- Some regular file is a direct child of `p`. -/
def hasFileChild (fs : FS) (p : List String) : Bool :=
  fs.files.any fun f => isChildOf p f.1

/-- Every proper level of `p` (including `p` itself) already exists as
a directory. -/
def dirsChainExists (fs : FS) (p : List String) : Prop :=
  ∀ i, i < p.length → fs.isDir (p.take (i + 1)) = true

/-- "No other filters are configured": every client-side filter knob of
the configuration other than the popularity threshold is off. -/
def noOtherFiltersConfigured (cfg : Config) : Prop :=
  cfg.filter_ratings = [] ∧ cfg.exclude_ratings = [] ∧
  cfg.filter_studios = [] ∧ cfg.exclude_studios = [] ∧
  cfg.filter_directors = [] ∧ cfg.filter_actors = [] ∧
  cfg.min_budget = 0 ∧ cfg.franchise_only = false ∧ cfg.original_only = false

/-- The staging-area target trailer directory of a movie (the target
used whenever no Radarr path override applies). -/
def stagingTarget (cfg : Config) (m : Movie) : List String :=
  upcomingPath cfg ++ [movieFolderName m, "trailers"]

/-- A successfully acquired movie's footprint: its staging trailer
directory exists and holds at least one file. -/
def successMark (cfg : Config) (m : Movie) (fs : FS) : Prop :=
  fs.isDir (stagingTarget cfg m) = true ∧
  hasFileChild fs (stagingTarget cfg m) = true

/-! ## Concrete instances (for counterexamples and witnesses) -/

/-- A configuration with popularity threshold 10 and nothing else
configured; hybrid integration mode. -/
def cfgBase : Config :=
  { moviesPath := ["lib"]
    days_ahead := 180
    popularity_threshold := 10
    max_movies := 50
    max_trailers_per_movie := 5
    integration_mode := "hybrid"
    filter_ratings := []
    exclude_ratings := []
    filter_studios := []
    exclude_studios := []
    filter_directors := []
    filter_actors := []
    min_budget := 0
    franchise_only := false
    original_only := false }

/-- `cfgBase` in `radarr_only` mode. -/
def cfgRadarrOnly : Config := { cfgBase with integration_mode := "radarr_only" }

/-- `cfgBase` in plain `upcoming` mode. -/
def cfgUpcoming : Config := { cfgBase with integration_mode := "upcoming" }

/-- A movie with popularity 5 (below threshold 10). -/
def mLow : Movie :=
  { id := some 1, title := "Low", popularity := 5
    release := .parsed "2025-06-01" 60, overview := "", belongs_to_collection := false }

/-- A movie with popularity 20 (above threshold 10). -/
def mHigh : Movie :=
  { id := some 2, title := "High", popularity := 20
    release := .parsed "2025-06-01" 60, overview := "", belongs_to_collection := true }

/-- The tracker-only resolvable movie of the reconciliation
counterexamples: on the wanted list, resolvable, inside the window, but
absent from catalog discovery. -/
def movie42 : Movie :=
  { id := some 42, title := "Wanted", popularity := 30
    release := .parsed "2025-01-11" 10, overview := "", belongs_to_collection := false }

/-- Environment for the reconciliation counterexamples: catalog
discovery comes back empty, the tracker wants movie 42, which resolves
to `movie42` inside the window. -/
def envRec : Env :=
  { hasRadarr := true
    today := 0
    nowIso := "2025-01-01T00:00:00"
    wanted := [{ tmdbId := some 42, hasFile := false, path := none }]
    radarrByTmdbId := fun _ => none
    discover := fun _ => some []
    details := fun i => if i = 42 then some movie42 else none
    videosOf := fun _ => none
    fetch := fun _ _ => false }

/-- A base filesystem: the library root and the staging directory
exist, nothing else. -/
def fsBase : FS :=
  ⟨[["lib", "_upcoming_trailers"], ["lib"]], []⟩

/-- The movie driving the orchestrator counterexamples and witnesses. -/
def mOrch : Movie :=
  { id := some 7, title := "M", popularity := 20
    release := .parsed "2025-01-11" 10, overview := "o", belongs_to_collection := false }

/-- `mOrch`'s staging folder. -/
def fldOrch : List String := ["lib", "_upcoming_trailers", "M (2025)"]

/-- `mOrch`'s staging trailer directory. -/
def tgtOrch : List String := ["lib", "_upcoming_trailers", "M (2025)", "trailers"]

/-- Environment in which the catalog's trailer list for `mOrch` comes
back empty. -/
def envNoTrailers : Env :=
  { hasRadarr := false
    today := 0
    nowIso := "2025-01-01T00:00:00"
    wanted := []
    radarrByTmdbId := fun _ => none
    discover := fun p => if p = 1 then some [mOrch] else none
    details := fun _ => none
    videosOf := fun _ => some []
    fetch := fun _ _ => false }

/-- Environment with one trailer for `mOrch` whose download fails on
attempt 0 but would succeed on attempt 1 — exposing that the code never
retries. -/
def envRetry : Env :=
  { envNoTrailers with
    videosOf := fun mid => if mid = some 7 then
        some [{ name := "T", key := "k1", vtype := "Trailer", site := "YouTube" }]
      else some []
    fetch := fun _ k => k == 1 }

/-- Environment with one trailer for `mOrch` whose download succeeds at
once. -/
def envOk : Env :=
  { envRetry with fetch := fun _ _ => true }

/-- `envOk` with every attempt after the first forced to fail (used to
witness that attempts beyond the first are never consulted). -/
def envOkFirstOnly : Env :=
  { envOk with fetch := fun _ k => k == 0 }

/-- The state after the whole pipeline successfully acquires `mOrch`
into a fresh staging area (README, movie folder, one trailer, record). -/
def fsAfterOk : FS :=
  ⟨[tgtOrch, fldOrch] ++ fsBase.dirs,
   [(fldOrch ++ ["movie_info.json"], movieInfoJson envOk mOrch 1),
    (slotFile tgtOrch "M" 0, "video")]⟩

/-- The state after a full pipeline run on `fsBase` in which `mOrch`'s
trailer list comes back empty: the README was written and the created
movie directories were left behind. -/
def fsAfterNoTrailers : FS :=
  ⟨[tgtOrch, fldOrch] ++ fsBase.dirs,
   [(["lib", "_upcoming_trailers", "README.md"],
     readmeContent cfgUpcoming envNoTrailers)]⟩

/-- The state after `processMovie` alone hits an empty trailer list on
`fsBase`: the created directories survive, no record is written. -/
def fsLeftover : FS := ⟨[tgtOrch, fldOrch] ++ fsBase.dirs, []⟩

/-- The one-trailer video list of the download witnesses. -/
def vidsW : List Video :=
  [{ name := "T", key := "k1", vtype := "Trailer", site := "YouTube" }]

/-! # Theorems -/

/-! ## Helper lemmas -/

theorem countP_add_filter_not_length (p : α → Bool) (l : List α) :
    l.countP p + (l.filter fun a => !p a).length = l.length := by
  induction l with
  | nil => simp
  | cons a l ih =>
    cases h : p a with
    | true =>
      simp [List.countP_cons, List.filter_cons, h]
      omega
    | false =>
      simp [List.countP_cons, List.filter_cons, h]
      omega

/-- The sweeper loop removes exactly the expired entries and counts
them. -/
theorem cleanupLoop_eq (today days_old : Int) (es : List UpEntry) :
    cleanupLoop today days_old es =
      (es.filter (fun e => !entryExpired today days_old e),
       es.countP (entryExpired today days_old)) := by
  induction es with
  | nil => simp [cleanupLoop]
  | cons e es ih =>
    obtain ⟨name, d, info⟩ := e
    cases d with
    | false => simp [cleanupLoop, ih, entryExpired, List.filter_cons, List.countP_cons]
    | true =>
      by_cases hn : name = "README.md"
      · simp [cleanupLoop, ih, entryExpired, hn, List.filter_cons, List.countP_cons]
      · cases info with
        | absent =>
          simp [cleanupLoop, ih, entryExpired, hn, List.filter_cons, List.countP_cons]
        | corrupt =>
          simp [cleanupLoop, ih, entryExpired, hn, List.filter_cons, List.countP_cons]
        | good rel =>
          cases rel with
          | missing =>
            simp [cleanupLoop, ih, entryExpired, hn, List.filter_cons, List.countP_cons]
          | unparsable s =>
            simp [cleanupLoop, ih, entryExpired, hn, List.filter_cons, List.countP_cons]
          | parsed s dd =>
            by_cases hd : days_old < today - dd
            · simp [cleanupLoop, ih, entryExpired, hn, hd,
                List.filter_cons, List.countP_cons]
            · simp [cleanupLoop, ih, entryExpired, hn, hd,
                List.filter_cons, List.countP_cons]

/-! ## C7 — lifecycle sweeper -/

/-- C7: `cleanup_old_upcoming` removes a record exactly when it is a
movie directory with a loaded, parseable release date such that
`today - release_date > retention_days`; all records with missing or
unparsable release dates survive untouched.  In particular (with
`today = 1000`, `retention_days = 30`) a record released 31 days ago is
removed and one released 29 days ago is retained. -/
theorem C7_sweeper_retention :
    (∀ (today days_old : Int) (es : List UpEntry),
      cleanupOldUpcoming true today days_old es =
        (es.filter (fun e => !entryExpired today days_old e),
         es.countP (entryExpired today days_old), none)) ∧
    cleanupOldUpcoming true 1000 30
      [⟨"Old (2024)", true, .good (.parsed "2024-12-01" 969)⟩] = ([], 1, none) ∧
    cleanupOldUpcoming true 1000 30
      [⟨"New (2025)", true, .good (.parsed "2025-01-10" 971)⟩] =
      ([⟨"New (2025)", true, .good (.parsed "2025-01-10" 971)⟩], 0, none) := by
  refine ⟨?_, by decide, by decide⟩
  intro today days_old es
  simp [cleanupOldUpcoming, cleanupLoop_eq]

/-! ## C8 — popularity filter -/

/-- C8: a candidate below the popularity threshold is rejected by
`_passes_all_filters` regardless of its other attributes; a candidate
at or above the threshold is accepted when no other filter is
configured. -/
theorem C8_popularity_filter (cfg : Config) (m : Movie) :
    (m.popularity < cfg.popularity_threshold → passesAllFilters cfg m = false) ∧
    (noOtherFiltersConfigured cfg → cfg.popularity_threshold ≤ m.popularity →
      passesAllFilters cfg m = true) := by
  constructor
  · intro h
    simp [passesAllFilters, h]
  · rintro ⟨-, -, -, -, -, -, -, hf, ho⟩ hge
    have hlt : ¬ m.popularity < cfg.popularity_threshold := not_lt.mpr hge
    simp [passesAllFilters, hlt, passesQualityFilters, passesContentFilters,
      passesProductionFilters, passesAdvancedFilters, hf, ho]

/-- Witness for C8: popularity 5 against threshold 10 is rejected;
popularity 20 with no other configured filters is accepted. -/
theorem C8_popularity_filter_witness :
    passesAllFilters cfgBase mLow = false ∧ passesAllFilters cfgBase mHigh = true :=
  ⟨(C8_popularity_filter cfgBase mLow).1 (by decide),
   (C8_popularity_filter cfgBase mHigh).2
     ⟨rfl, rfl, rfl, rfl, rfl, rfl, rfl, rfl, rfl⟩ (by decide)⟩

/-! ## C9 — sweep return value -/

/-- Counterexample for C9: on an input where exactly one record is
removed, the sweep's counter is 1 but the value returned to the caller
is `None` (the Python function has no `return` statement), not the
count. -/
theorem C9_cex :
    (cleanupOldUpcoming true 1000 30
      [⟨"Stale (2024)", true, .good (.parsed "2024-11-01" 939)⟩]).2.1 = 1 ∧
    (cleanupOldUpcoming true 1000 30
      [⟨"Stale (2024)", true, .good (.parsed "2024-11-01" 939)⟩]).2.2 = none ∧
    (none : Option Nat) ≠ some 1 := by decide

/-- C9 (amended): the sweep's internal counter does equal the number of
removed record directories (it is logged), but the function returns
`None` to its caller; the count is never returned. -/
theorem C9_sweep_count (upExists : Bool) (today days_old : Int)
    (es : List UpEntry) :
    (cleanupOldUpcoming upExists today days_old es).2.2 = none ∧
    (cleanupOldUpcoming upExists today days_old es).2.1 +
      ((cleanupOldUpcoming upExists today days_old es).1).length = es.length := by
  cases upExists with
  | false => simp [cleanupOldUpcoming]
  | true =>
    refine ⟨by simp [cleanupOldUpcoming], ?_⟩
    simp only [cleanupOldUpcoming, Bool.not_true, Bool.false_eq_true, if_false,
      cleanupLoop_eq]
    exact countP_add_filter_not_length _ es

/-! ## Stable-sort lemmas -/

theorem stableInsert_perm (le : α → α → Bool) (a : α) (l : List α) :
    (stableInsert le a l).Perm (a :: l) := by
  induction l with
  | nil => exact List.Perm.refl _
  | cons b bs ih =>
    by_cases h : le a b = true
    · simp [stableInsert, h]
    · simp only [stableInsert, h, if_false]
      exact (List.Perm.cons b ih).trans (List.Perm.swap a b bs)

theorem stableSort_perm (le : α → α → Bool) (l : List α) :
    (stableSort le l).Perm l := by
  induction l with
  | nil => exact List.Perm.refl _
  | cons a as ih =>
    exact (stableInsert_perm le a (stableSort le as)).trans (List.Perm.cons a ih)

theorem mem_stableInsert (le : α → α → Bool) (a x : α) (l : List α) :
    x ∈ stableInsert le a l ↔ x = a ∨ x ∈ l := by
  rw [(stableInsert_perm le a l).mem_iff]
  simp

theorem stableInsert_pairwise (le : α → α → Bool)
    (htrans : ∀ a b c, le a b = true → le b c = true → le a c = true)
    (htot : ∀ a b, le a b = true ∨ le b a = true)
    (a : α) (l : List α) (hl : l.Pairwise fun x y => le x y = true) :
    (stableInsert le a l).Pairwise fun x y => le x y = true := by
  induction l with
  | nil => simp [stableInsert]
  | cons b bs ih =>
    rcases List.pairwise_cons.mp hl with ⟨hb, hbs⟩
    by_cases h : le a b = true
    · simp only [stableInsert, h, if_true]
      refine List.pairwise_cons.mpr ⟨?_, hl⟩
      intro x hx
      rcases List.mem_cons.mp hx with rfl | hx'
      · exact h
      · exact htrans a b x h (hb x hx')
    · have hba : le b a = true := (htot a b).resolve_left h
      simp only [stableInsert, h, if_false]
      refine List.pairwise_cons.mpr ⟨?_, ih hbs⟩
      intro x hx
      rcases (mem_stableInsert le a x bs).mp hx with rfl | hx'
      · exact hba
      · exact hb x hx'

theorem stableSort_pairwise (le : α → α → Bool)
    (htrans : ∀ a b c, le a b = true → le b c = true → le a c = true)
    (htot : ∀ a b, le a b = true ∨ le b a = true) (l : List α) :
    (stableSort le l).Pairwise fun x y => le x y = true := by
  induction l with
  | nil => simp [stableSort]
  | cons a as ih => exact stableInsert_pairwise le htrans htot a _ ih

theorem radarrPriorityLe_trans (ids : List (Option Nat)) (a b c : Movie) :
    radarrPriorityLe ids a b = true → radarrPriorityLe ids b c = true →
    radarrPriorityLe ids a c = true := by
  simp only [radarrPriorityLe]
  cases ha : ids.contains a.id <;> cases hb : ids.contains b.id <;>
    cases hc : ids.contains c.id <;> simp <;>
    exact fun h1 h2 => le_trans h2 h1

theorem radarrPriorityLe_total (ids : List (Option Nat)) (a b : Movie) :
    radarrPriorityLe ids a b = true ∨ radarrPriorityLe ids b a = true := by
  simp only [radarrPriorityLe]
  cases ha : ids.contains a.id <;> cases hb : ids.contains b.id <;> simp <;>
    exact le_total b.popularity a.popularity

/-! ## C2 — hybrid reconciliation -/

/-- Counterexample for C2: with empty catalog discovery and a wanted
entry that resolves to `movie42` inside the window, the claimed
reconciliation yields `[movie42]` but the effective code (the second
`get_filtered_upcoming_movies` definition, which Python binds) yields
`[]` — tracker-resolved candidates are never united into the result. -/
theorem C2_cex :
    hybridReconcileClaim cfgBase envRec = [movie42] ∧
    getFilteredUpcomingMovies cfgBase envRec = [] := by decide

/-- C2 (amended): in hybrid mode the pipeline returns exactly the
catalog discovery results — a permutation of them, re-sorted so that
candidates with a wanted external id come first, ties by popularity
descending; no tracker-resolved candidate is added, no deduplication
and no further truncation happens. -/
theorem C2_hybrid_mode (cfg : Config) (env : Env)
    (h1 : env.hasRadarr = true) (h2 : cfg.integration_mode = "hybrid") :
    (getFilteredUpcomingMovies cfg env).Perm (getUpcomingMovies cfg env) ∧
    (getFilteredUpcomingMovies cfg env).Pairwise
      (fun a b =>
        radarrPriorityLe (env.wanted.map fun rm => rm.tmdbId) a b = true) := by
  have hmode : getFilteredUpcomingMovies cfg env =
      stableSort (radarrPriorityLe (env.wanted.map fun rm => rm.tmdbId))
        (getUpcomingMovies cfg env) := by
    simp [getFilteredUpcomingMovies, h1, h2]
  rw [hmode]
  exact ⟨stableSort_perm _ _,
    stableSort_pairwise _ (radarrPriorityLe_trans _) (radarrPriorityLe_total _) _⟩

/-- Witness for C2's amended theorem at the concrete instance. -/
theorem C2_hybrid_mode_witness :
    (getFilteredUpcomingMovies cfgBase envRec).Perm
      (getUpcomingMovies cfgBase envRec) :=
  (C2_hybrid_mode cfgBase envRec rfl rfl).1

/-! ## C3 — tracker-only mode -/

/-- Counterexample for C3: the wanted entry resolves (by external id)
to `movie42`, inside the window, so the claimed tracker-only pipeline
output is `[movie42]` (this is exactly what the shadowed
`_get_radarr_wanted_movies` computes); but the effective code returns
`[]`, because it only filters the (here empty) catalog discovery
results by wanted ids and never resolves wanted entries. -/
theorem C3_cex :
    getRadarrWantedMovies cfgRadarrOnly envRec = [movie42] ∧
    getFilteredUpcomingMovies cfgRadarrOnly envRec = [] := by decide

/-- C3 (amended): in `radarr_only` mode the pipeline returns exactly
those catalog discovery results whose external id appears on the
tracker's wanted list; wanted entries are not resolved individually,
and a wanted movie absent from discovery never appears. -/
theorem C3_radarr_only_mode (cfg : Config) (env : Env)
    (h1 : env.hasRadarr = true) (h2 : cfg.integration_mode = "radarr_only")
    (m : Movie) :
    m ∈ getFilteredUpcomingMovies cfg env ↔
      m ∈ getUpcomingMovies cfg env ∧
        env.wanted.any (fun rm => rm.tmdbId == m.id) = true := by
  simp [getFilteredUpcomingMovies, h1, h2, List.mem_filter]

/-- Witness for C3's amended theorem at the concrete instance. -/
theorem C3_radarr_only_mode_witness :
    movie42 ∈ getFilteredUpcomingMovies cfgRadarrOnly envRec ↔
      movie42 ∈ getUpcomingMovies cfgRadarrOnly envRec ∧
        envRec.wanted.any (fun rm => rm.tmdbId == movie42.id) = true :=
  C3_radarr_only_mode cfgRadarrOnly envRec rfl rfl movie42

/-! ## C10 — run statistics invariant -/

theorem countOutcome_total (os : List Outcome) :
    countOutcome .processed os + countOutcome .skipped os +
      countOutcome .error os = os.length := by
  induction os with
  | nil => rfl
  | cons o os ih =>
    cases o <;> simp [countOutcome, List.countP_cons] at * <;> omega

theorem runMovies_length (cfg : Config) (env : Env) :
    ∀ (ms : List Movie) (fs fs₂ : FS) (os : List Outcome),
      runMovies cfg env fs ms = some (fs₂, os) → os.length = ms.length := by
  intro ms
  induction ms with
  | nil =>
    intro fs fs₂ os h
    simp only [runMovies, Option.some_inj, Prod.mk.injEq] at h
    rw [← h.2]
    rfl
  | cons m ms ih =>
    intro fs fs₂ os h
    simp only [runMovies] at h
    split at h
    · exact absurd h (by simp)
    · rename_i fs₁ o hp
      split at h
      · exact absurd h (by simp)
      · rename_i fs₃ os₂ hr
        simp only [Option.some_inj, Prod.mk.injEq] at h
        rw [← h.2]
        simp [ih fs₁ fs₃ os₂ hr]

/-- C10: whenever `download_upcoming_trailers` returns, its statistics
satisfy `processed + skipped + errors = total`, and `total` is the
number of candidates handed to the loop — every candidate increments
exactly one outcome counter. -/
theorem C10_stats_invariant (cfg : Config) (env : Env) (fs fs₂ : FS)
    (st : Stats) (os : List Outcome)
    (h : downloadUpcomingTrailers cfg env fs = some (fs₂, st, os)) :
    st.processed + st.skipped + st.errors = st.total ∧
    st.total = (getFilteredUpcomingMovies cfg env).length := by
  unfold downloadUpcomingTrailers at h
  split at h
  · exact absurd h (by simp)
  · rename_i fs₁ hc
    simp only at h
    split at h
    · rename_i he
      simp only [Option.some_inj, Prod.mk.injEq] at h
      rw [← h.2.1]
      simp [List.isEmpty_iff.mp he]
    · rename_i he
      split at h
      · exact absurd h (by simp)
      · rename_i fs₃ os₂ hr
        simp only [Option.some_inj, Prod.mk.injEq] at h
        rw [← h.2.1]
        refine ⟨?_, rfl⟩
        rw [countOutcome_total]
        exact runMovies_length cfg env _ _ _ _ hr

/-- Witness for C10 on a concrete full pipeline run (one candidate,
empty trailer list, hence one error). -/
theorem C10_stats_invariant_witness :
    (Stats.mk 1 0 0 1).processed + (Stats.mk 1 0 0 1).skipped +
      (Stats.mk 1 0 0 1).errors = (Stats.mk 1 0 0 1).total ∧
    (Stats.mk 1 0 0 1).total =
      (getFilteredUpcomingMovies cfgUpcoming envNoTrailers).length :=
  C10_stats_invariant cfgUpcoming envNoTrailers fsBase fsAfterNoTrailers
    (Stats.mk 1 0 0 1) [Outcome.error] (by decide)

/-! ## C4 — retry behaviour of trailer downloads -/

/-- Counterexample for C4: with `retry_attempts = 3` configured
(the `DownloadConfig` default) and a trailer whose download fails on
attempt 0 but would succeed on attempt 1, the code performs exactly one
attempt per slot (not up to 3), the slot counts as failed, and the
whole target is rolled back — whereas the claimed retry policy would
have succeeded after 2 attempts. -/
theorem C4_cex :
    downloadSlotCode (envRetry.fetch (trailerUrl "k1")) = (false, 1) ∧
    downloadSlotClaim defaultRetryAttempts (envRetry.fetch (trailerUrl "k1")) =
      (true, 2) ∧
    processMovie cfgUpcoming envRetry fsBase mOrch = some (fsBase, Outcome.error) := by
  decide

/-- C4 (amended): each trailer slot gets exactly one download attempt —
the download loop's result depends only on attempt 0 of the fetch
capability (the configured `retry_attempts` / `retry_delay` are never
consulted), and the per-target success counter equals the number of
attempted slots whose single attempt succeeds. -/
theorem C4_single_attempt (env env₂ : Env) (target : List String) (title : String)
    (j : Nat) (vs : List Video) (fs : FS) (u : String)
    (h : ∀ s, env.fetch s 0 = env₂.fetch s 0) :
    downloadSlotCode (env.fetch u) = (env.fetch u 0, 1) ∧
    runDownloads env target title j vs fs = runDownloads env₂ target title j vs fs ∧
    (runDownloads env target title j vs fs).2 =
      vs.countP (fun v => env.fetch (trailerUrl v.key) 0) := by
  refine ⟨rfl, ?_, ?_⟩
  · induction vs generalizing j fs with
    | nil => rfl
    | cons v vs ih =>
      have hv := h (trailerUrl v.key)
      simp only [runDownloads, downloadSlotCode, hv]
      cases hf : env₂.fetch (trailerUrl v.key) 0 with
      | true => simp [hf, ih]
      | false => simp [hf, ih]
  · induction vs generalizing j fs with
    | nil => rfl
    | cons v vs ih =>
      simp only [runDownloads, downloadSlotCode, List.countP_cons]
      cases hf : env.fetch (trailerUrl v.key) 0 with
      | true => simp [hf, ih]
      | false => simp [hf, ih]

/-- Witness for C4's amended theorem: a success-at-once environment and
its variant where every attempt after the first fails behave
identically. -/
theorem C4_single_attempt_witness :
    downloadSlotCode (envOk.fetch (trailerUrl "k1")) =
      (envOk.fetch (trailerUrl "k1") 0, 1) ∧
    runDownloads envOk tgtOrch "M" 0 vidsW fsBase =
      runDownloads envOkFirstOnly tgtOrch "M" 0 vidsW fsBase ∧
    (runDownloads envOk tgtOrch "M" 0 vidsW fsBase).2 =
      vidsW.countP (fun v => envOk.fetch (trailerUrl v.key) 0) :=
  C4_single_attempt envOk envOkFirstOnly tgtOrch "M" 0 vidsW fsBase
    (trailerUrl "k1") (fun _ => rfl)

/-! ## Filesystem lemmas for the rollback claim -/

theorem mkdirAux_append (fs : FS) (done l₁ l₂ : List String) :
    mkdirAux fs done (l₁ ++ l₂) = mkdirAux (mkdirAux fs done l₁) (done ++ l₁) l₂ := by
  induction l₁ generalizing fs done with
  | nil => simp [mkdirAux]
  | cons c cs ih =>
    simp only [List.cons_append, mkdirAux, List.append_eq]
    rw [ih]
    rw [show done ++ c :: cs = (done ++ [c]) ++ cs by simp]

theorem mkdirAux_of_chain (fs : FS) :
    ∀ (rest done : List String),
      (∀ i, i < rest.length → fs.isDir (done ++ rest.take (i + 1)) = true) →
      mkdirAux fs done rest = fs := by
  intro rest
  induction rest with
  | nil => intro done _; rfl
  | cons c cs ih =>
    intro done h
    have h0 : fs.isDir (done ++ [c]) = true := by
      have := h 0 (by simp)
      simpa using this
    simp only [mkdirAux]
    rw [show fs.addDir (done ++ [c]) = fs by simp [FS.addDir, h0]]
    apply ih
    intro i hi
    have := h (i + 1) (by simpa using Nat.succ_lt_succ hi)
    rw [show done ++ (c :: cs).take (i + 1 + 1) = (done ++ [c]) ++ cs.take (i + 1) by
      simp [List.take_succ_cons]] at this
    exact this

theorem isChildOf_false_of_length (p q : List String)
    (h : q.length ≠ p.length + 1) : isChildOf p q = false := by
  simp only [isChildOf, Bool.and_eq_false_iff]
  left
  simpa using h

/-- `mkdir(parents=True)` on a chain whose base exists and whose last
two levels are fresh prepends exactly those two directories. -/
theorem mkdirAll_fresh2 (fs : FS) (up : List String) (a b : String)
    (hchain : dirsChainExists fs up)
    (h1 : fs.isDir (up ++ [a]) = false)
    (h2 : fs.isDir (up ++ [a, b]) = false) :
    fs.mkdirAll (up ++ [a, b]) =
      ⟨(up ++ [a, b]) :: (up ++ [a]) :: fs.dirs, fs.files⟩ := by
  unfold FS.mkdirAll
  rw [mkdirAux_append fs [] up [a, b]]
  rw [mkdirAux_of_chain fs up [] (by intro i hi; simpa using hchain i hi)]
  simp only [List.nil_append, mkdirAux]
  rw [show fs.addDir (up ++ [a]) = ⟨(up ++ [a]) :: fs.dirs, fs.files⟩ by
    simp [FS.addDir, h1]]
  have hisdir : FS.isDir ⟨(up ++ [a]) :: fs.dirs, fs.files⟩ ((up ++ [a]) ++ [b]) = false := by
    simp only [FS.isDir, List.contains_cons, Bool.or_eq_false_iff]
    constructor
    · simp
    · have : fs.isDir ((up ++ [a]) ++ [b]) = false := by
        rw [show (up ++ [a]) ++ [b] = up ++ [a, b] by simp]
        exact h2
      simpa [FS.isDir] using this
  simp only [mkdirAux, FS.addDir, hisdir, Bool.false_eq_true, if_false]
  rw [show (up ++ [a]) ++ [b] = up ++ [a, b] by simp]

theorem runDownloads_allFail (env : Env) (target : List String) (title : String) :
    ∀ (vs : List Video) (j : Nat) (fs : FS),
      (∀ v ∈ vs, env.fetch (trailerUrl v.key) 0 = false) →
      runDownloads env target title j vs fs = (fs, 0) := by
  intro vs
  induction vs with
  | nil => intro j fs _; rfl
  | cons v vs ih =>
    intro j fs h
    have hv : env.fetch (trailerUrl v.key) 0 = false := h v (by simp)
    simp only [runDownloads, downloadSlotCode, hv, Bool.false_eq_true, if_false]
    exact ih (j + 1) fs (fun w hw => h w (by simp [hw]))

/-! ## C1 — rollback of zero-success targets -/

/-- Counterexample for C1: when the catalog's trailer list comes back
empty for a fresh target, the code counts an error and `continue`s
(lines 495-498) WITHOUT removing the directories it just created —
the trailer directory and the fresh parent movie directory survive
(no `movie_info.json` is written). -/
theorem C1_cex :
    processMovie cfgUpcoming envNoTrailers fsBase mOrch =
      some (fsLeftover, Outcome.error) ∧
    fsLeftover.isDir tgtOrch = true ∧
    fsLeftover.isDir fldOrch = true ∧
    fsLeftover.fileAt (fldOrch ++ ["movie_info.json"]) = false := by
  decide

/-- C1 (amended): for a fresh staging target with no Radarr override,
(a) if the trailer list is non-empty and every attempted download
fails, the created trailer directory and the freshly created parent
movie directory are rolled back — the filesystem is restored exactly,
so no record and no directory survives — and the target counts as an
error; but (b) if the trailer list comes back empty, the target still
counts as an error and no record is written, yet the two created
directories are NOT removed. -/
theorem C1_rollback (cfg : Config) (env : Env) (fs : FS) (m : Movie)
    (hrp : shouldDownloadToRadarrFolder env fs m = none)
    (hchain : dirsChainExists fs (upcomingPath cfg))
    (hfld : fs.isDir (upcomingPath cfg ++ [movieFolderName m]) = false)
    (htgt : fs.pathExists (stagingTarget cfg m) = false)
    (hmk : fs.mkdirOk (stagingTarget cfg m) = true)
    (hnc1 : fs.hasChild (stagingTarget cfg m) = false)
    (hnc2 : fs.hasChild (upcomingPath cfg ++ [movieFolderName m]) = false) :
    (getMovieTrailers env m.id ≠ [] →
      (∀ v ∈ (getMovieTrailers env m.id).take cfg.max_trailers_per_movie,
        env.fetch (trailerUrl v.key) 0 = false) →
      processMovie cfg env fs m = some (fs, Outcome.error)) ∧
    (getMovieTrailers env m.id = [] →
      processMovie cfg env fs m =
        some (⟨stagingTarget cfg m ::
          (upcomingPath cfg ++ [movieFolderName m]) :: fs.dirs, fs.files⟩,
          Outcome.error)) := by
  have htp : targetPathOf cfg env fs m = (none, stagingTarget cfg m) := by
    simp [targetPathOf, hrp, stagingTarget]
  have hd : fs.isDir (stagingTarget cfg m) = false := by
    have h' := htgt
    simp only [FS.pathExists, Bool.or_eq_false_iff] at h'
    exact h'.1
  have hmkall : fs.mkdirAll (stagingTarget cfg m) =
      ⟨stagingTarget cfg m :: (upcomingPath cfg ++ [movieFolderName m]) ::
        fs.dirs, fs.files⟩ :=
    mkdirAll_fresh2 fs (upcomingPath cfg) (movieFolderName m) "trailers"
      hchain hfld hd
  have hlen_tgt : (stagingTarget cfg m).length = (upcomingPath cfg).length + 2 := by
    simp [stagingTarget]
  have hlen_fld : (upcomingPath cfg ++ [movieFolderName m]).length =
      (upcomingPath cfg).length + 1 := by
    simp
  have hcc1 : isChildOf (stagingTarget cfg m) (stagingTarget cfg m) = false :=
    isChildOf_false_of_length _ _ (by omega)
  have hcc2 : isChildOf (stagingTarget cfg m)
      (upcomingPath cfg ++ [movieFolderName m]) = false :=
    isChildOf_false_of_length _ _ (by omega)
  have hnc1' : fs.dirs.any (isChildOf (stagingTarget cfg m)) = false ∧
      fs.files.any (fun f => isChildOf (stagingTarget cfg m) f.1) = false := by
    have h' := hnc1
    simp only [FS.hasChild, Bool.or_eq_false_iff] at h'
    exact h'
  have hnc2' : fs.dirs.any
        (isChildOf (upcomingPath cfg ++ [movieFolderName m])) = false ∧
      fs.files.any
        (fun f => isChildOf (upcomingPath cfg ++ [movieFolderName m]) f.1) = false := by
    have h' := hnc2
    simp only [FS.hasChild, Bool.or_eq_false_iff] at h'
    exact h'
  constructor
  · intro hNE hfail
    have hne' : (getMovieTrailers env m.id).isEmpty = false :=
      Bool.eq_false_iff.mpr (fun h' => hNE (List.isEmpty_iff.mp h'))
    have hdl := runDownloads_allFail env (stagingTarget cfg m) m.title
      ((getMovieTrailers env m.id).take cfg.max_trailers_per_movie) 0
      (⟨stagingTarget cfg m :: (upcomingPath cfg ++ [movieFolderName m]) ::
        fs.dirs, fs.files⟩ : FS) hfail
    have hrm1 : FS.rmdir
        (⟨stagingTarget cfg m :: (upcomingPath cfg ++ [movieFolderName m]) ::
          fs.dirs, fs.files⟩ : FS) (stagingTarget cfg m) =
        some ⟨(upcomingPath cfg ++ [movieFolderName m]) :: fs.dirs, fs.files⟩ := by
      simp only [FS.rmdir, FS.isDir, FS.hasChild, List.contains_cons,
        List.any_cons, hcc1, hcc2, hnc1'.1, hnc1'.2, beq_self_eq_true, Bool.true_or,
        Bool.or_false, Bool.false_or, Bool.not_false, Bool.and_self, if_true, if_pos rfl]
      rw [List.erase_cons_head]
    have hdrop : (stagingTarget cfg m).dropLast =
        upcomingPath cfg ++ [movieFolderName m] := by
      rw [show stagingTarget cfg m =
        (upcomingPath cfg ++ [movieFolderName m]) ++ ["trailers"] by
          simp [stagingTarget]]
      rw [List.dropLast_concat]
    have hcc3 : isChildOf (upcomingPath cfg ++ [movieFolderName m])
        (upcomingPath cfg ++ [movieFolderName m]) = false :=
      isChildOf_false_of_length _ _ (by omega)
    have hrm2 : FS.rmdir
        (⟨(upcomingPath cfg ++ [movieFolderName m]) :: fs.dirs, fs.files⟩ : FS)
        (upcomingPath cfg ++ [movieFolderName m]) =
        some ⟨fs.dirs, fs.files⟩ := by
      simp only [FS.rmdir, FS.isDir, FS.hasChild, List.contains_cons,
        List.any_cons, hcc3, hnc2'.1, hnc2'.2, beq_self_eq_true, Bool.true_or,
        Bool.or_false, Bool.false_or, Bool.not_false, Bool.and_self, if_true, if_pos rfl]
      rw [List.erase_cons_head]
    have hpe2 : FS.pathExists
        (⟨stagingTarget cfg m :: (upcomingPath cfg ++ [movieFolderName m]) ::
          fs.dirs, fs.files⟩ : FS) (stagingTarget cfg m) = true := by
      simp [FS.pathExists, FS.isDir, List.contains_cons]
    have hpe3 : FS.pathExists
        (⟨(upcomingPath cfg ++ [movieFolderName m]) :: fs.dirs, fs.files⟩ : FS)
        (upcomingPath cfg ++ [movieFolderName m]) = true := by
      simp [FS.pathExists, FS.isDir, List.contains_cons]
    simp only [processMovie, htp, htgt, Bool.false_eq_true, if_false,
      processMovieTry, hmk, Bool.not_true, hne', hmkall, hdl,
      lt_self_iff_false, hpe2, if_true, hrm1, hdrop, hpe3, hrm2]
  · intro hE
    simp only [processMovie, htp, htgt, Bool.false_eq_true, if_false,
      processMovieTry, hmk, Bool.not_true, hmkall, hE, List.isEmpty_nil,
      if_true, if_pos rfl]

/-- Witness for C1's amended theorem: a fresh target whose single
trailer download fails is rolled back to the exact starting state. -/
theorem C1_rollback_witness :
    processMovie cfgUpcoming envRetry fsBase mOrch = some (fsBase, Outcome.error) :=
  (C1_rollback cfgUpcoming envRetry fsBase mOrch (by decide)
    (by unfold dirsChainExists; decide)
    (by decide) (by decide) (by decide) (by decide) (by decide)).1
    (by decide) (by decide)

/-! ## C6 — folder-name parse characterization -/

theorem take_wsCount_all (l : List Char) :
    ∀ c ∈ l.take (wsCount l), pyWs c = true := by
  induction l with
  | nil => simp
  | cons c cs ih =>
    by_cases hc : pyWs c = true
    · simp only [wsCount, hc, if_true, List.take_succ_cons]
      intro x hx
      rcases List.mem_cons.mp hx with rfl | hx'
      · exact hc
      · exact ih x hx'
    · simp only [wsCount, hc, if_false]
      simp

theorem wsCount_ws_append (w : List Char) (hws : ∀ c ∈ w, pyWs c = true)
    (t : List Char) : wsCount (w ++ '(' :: t) = w.length := by
  induction w with
  | nil => simp [wsCount, pyWs]
  | cons c ws ih =>
    have hc : pyWs c = true := hws c (by simp)
    simp only [List.cons_append, wsCount, hc, if_true, List.length_cons,
      List.append_eq]
    rw [ih (fun x hx => hws x (by simp [hx]))]

theorem checkFrom_eq_some (rest : List Char) (y : Nat) (rem : List Char)
    (h : checkFrom rest = some (y, rem)) :
    ∃ w d1 d2 d3 d4, rest = w ++ '(' :: d1 :: d2 :: d3 :: d4 :: ')' :: rem ∧
      (∀ c ∈ w, pyWs c = true) ∧ pyDigit d1 = true ∧ pyDigit d2 = true ∧
      pyDigit d3 = true ∧ pyDigit d4 = true := by
  unfold checkFrom at h
  split at h
  · rename_i d1 d2 d3 d4 r3 heq
    split at h
    · rename_i hd
      simp only [Option.some_inj, Prod.mk.injEq] at h
      refine ⟨rest.take (wsCount rest), d1, d2, d3, d4, ?_, take_wsCount_all rest,
        ?_, ?_, ?_, ?_⟩
      · rw [← h.2, ← heq, List.take_append_drop]
      · exact (by simp only [Bool.and_eq_true] at hd; exact hd.1.1.1)
      · exact (by simp only [Bool.and_eq_true] at hd; exact hd.1.1.2)
      · exact (by simp only [Bool.and_eq_true] at hd; exact hd.1.2)
      · exact (by simp only [Bool.and_eq_true] at hd; exact hd.2)
    · exact absurd h (by simp)
  · exact absurd h (by simp)

theorem checkFrom_complete (w : List Char) (d1 d2 d3 d4 : Char)
    (rem : List Char) (hws : ∀ c ∈ w, pyWs c = true)
    (h1 : pyDigit d1 = true) (h2 : pyDigit d2 = true)
    (h3 : pyDigit d3 = true) (h4 : pyDigit d4 = true) :
    checkFrom (w ++ '(' :: d1 :: d2 :: d3 :: d4 :: ')' :: rem) =
      some (digitVal d1 * 1000 + digitVal d2 * 100 + digitVal d3 * 10 +
        digitVal d4, rem) := by
  unfold checkFrom
  rw [wsCount_ws_append w hws, List.drop_left]
  simp [h1, h2, h3, h4]

theorem scanMatch_isSome (cs : List Char) : ∀ (acc : List Char),
    (scanMatch acc cs).isSome = true ↔
      ∃ t w d1 d2 d3 d4 rest,
        cs = t ++ w ++ '(' :: d1 :: d2 :: d3 :: d4 :: ')' :: rest ∧
        t ≠ [] ∧ (∀ c ∈ t, c ≠ '\n') ∧ (∀ c ∈ w, pyWs c = true) ∧
        pyDigit d1 = true ∧ pyDigit d2 = true ∧ pyDigit d3 = true ∧
        pyDigit d4 = true ∧ tailOk rest = true := by
  induction cs with
  | nil =>
    intro acc
    simp only [scanMatch, Option.isSome_none, Bool.false_eq_true, false_iff]
    rintro ⟨t, w, d1, d2, d3, d4, rest, heq, hne, -⟩
    cases t with
    | nil => exact hne rfl
    | cons a t' => exact absurd heq (by simp)
  | cons c cs ih =>
    intro acc
    constructor
    · intro h
      simp only [scanMatch] at h
      by_cases hc : c = '\n'
      · rw [if_pos hc] at h
        exact absurd h (by simp)
      · rw [if_neg hc] at h
        have fromTail : (scanMatch (acc ++ [c]) cs).isSome = true →
            ∃ t w d1 d2 d3 d4 rest,
              c :: cs = t ++ w ++ '(' :: d1 :: d2 :: d3 :: d4 :: ')' :: rest ∧
              t ≠ [] ∧ (∀ x ∈ t, x ≠ '\n') ∧ (∀ x ∈ w, pyWs x = true) ∧
              pyDigit d1 = true ∧ pyDigit d2 = true ∧ pyDigit d3 = true ∧
              pyDigit d4 = true ∧ tailOk rest = true := by
          intro h'
          obtain ⟨t, w, d1, d2, d3, d4, rest, heq, hne, hnl, hws, g1, g2, g3, g4, gt⟩ :=
            (ih (acc ++ [c])).mp h'
          refine ⟨c :: t, w, d1, d2, d3, d4, rest, by simp [heq], by simp, ?_,
            hws, g1, g2, g3, g4, gt⟩
          intro x hx
          rcases List.mem_cons.mp hx with rfl | hx'
          · exact hc
          · exact hnl x hx'
        split at h
        · rename_i y rem hcf
          split at h
          · rename_i ht
            obtain ⟨w, d1, d2, d3, d4, heq, hws, g1, g2, g3, g4⟩ :=
              checkFrom_eq_some cs y rem hcf
            refine ⟨[c], w, d1, d2, d3, d4, rem, by simp [heq], by simp, ?_,
              hws, g1, g2, g3, g4, ht⟩
            intro x hx
            rcases List.mem_cons.mp hx with rfl | hx'
            · exact hc
            · simp at hx'
          · exact fromTail h
        · exact fromTail h
    · rintro ⟨t, w, d1, d2, d3, d4, rest, heq, hne, hnl, hws, g1, g2, g3, g4, gt⟩
      cases t with
      | nil => exact absurd rfl hne
      | cons t0 t' =>
        have hct : c = t0 ∧ cs = t' ++ w ++ '(' :: d1 :: d2 :: d3 :: d4 :: ')' :: rest := by
          have := heq
          simp only [List.cons_append, List.cons.injEq] at this
          exact this
        obtain ⟨rfl, hcs⟩ := hct
        have hcnl : c ≠ '\n' := hnl c (by simp)
        simp only [scanMatch, if_neg hcnl]
        cases t' with
        | nil =>
          simp only [List.nil_append] at hcs
          rw [hcs, checkFrom_complete w d1 d2 d3 d4 rest hws g1 g2 g3 g4]
          simp [gt]
        | cons t1 t'' =>
          split
          · rename_i y rem hcf
            split
            · simp
            · rename_i ht
              apply (ih (acc ++ [c])).mpr
              refine ⟨t1 :: t'', w, d1, d2, d3, d4, rest, hcs, by simp, ?_,
                hws, g1, g2, g3, g4, gt⟩
              intro x hx
              exact hnl x (by simp [hx])
          · rename_i hcf
            apply (ih (acc ++ [c])).mpr
            refine ⟨t1 :: t'', w, d1, d2, d3, d4, rest, hcs, by simp, ?_,
              hws, g1, g2, g3, g4, gt⟩
            intro x hx
            exact hnl x (by simp [hx])

/-- C6: the folder-name parse of `Title (YYYY)` succeeds exactly on
names decomposing as a non-empty (newline-free) title segment, optional
whitespace, a four-digit year in parentheses, then anything; the title
is returned trimmed of surrounding whitespace.  `"Inception (2010)"`
parses to `("Inception", 2010)`, while `"_upcoming_trailers"` and
`"Movie Name (99)"` do not parse. -/
theorem C6_folder_name (name : String) :
    ((parseMovieFolder name).isSome = true ↔ matchesMoviePattern name) ∧
    parseMovieFolder "Inception (2010)" = some ("Inception", 2010) ∧
    parseMovieFolder "_upcoming_trailers" = none ∧
    parseMovieFolder "Movie Name (99)" = none := by
  refine ⟨?_, by decide, by decide, by decide⟩
  unfold parseMovieFolder matchesMoviePattern
  cases hs : scanMatch [] name.data with
  | none =>
    have := (scanMatch_isSome name.data []).symm
    rw [hs] at this
    simpa using this.symm
  | some p =>
    have := scanMatch_isSome name.data []
    rw [hs] at this
    simpa using this

/-! ## Preservation lemmas for the idempotence claim -/

theorem FS.addDir_files (fs : FS) (p : List String) :
    (fs.addDir p).files = fs.files := by
  unfold FS.addDir
  split <;> rfl

theorem mkdirAux_files : ∀ (rest done : List String) (fs : FS),
    (mkdirAux fs done rest).files = fs.files := by
  intro rest
  induction rest with
  | nil => intro done fs; rfl
  | cons c cs ih =>
    intro done fs
    simp only [mkdirAux]
    rw [ih (done ++ [c]) (fs.addDir (done ++ [c])), FS.addDir_files]

theorem FS.mkdirAll_files (fs : FS) (p : List String) :
    (fs.mkdirAll p).files = fs.files := mkdirAux_files p [] fs

theorem FS.addDir_isDir_mono (fs : FS) (p q : List String)
    (h : fs.isDir q = true) : (fs.addDir p).isDir q = true := by
  unfold FS.addDir
  split
  · exact h
  · simp only [FS.isDir, List.contains_cons, Bool.or_eq_true]
    right
    exact h

theorem mkdirAux_isDir_mono : ∀ (rest done : List String) (fs : FS)
    (q : List String), fs.isDir q = true →
    (mkdirAux fs done rest).isDir q = true := by
  intro rest
  induction rest with
  | nil => intro done fs q h; exact h
  | cons c cs ih =>
    intro done fs q h
    simp only [mkdirAux]
    exact ih (done ++ [c]) _ q (FS.addDir_isDir_mono fs _ q h)

theorem FS.mkdirAll_isDir_mono (fs : FS) (p q : List String)
    (h : fs.isDir q = true) : (fs.mkdirAll p).isDir q = true :=
  mkdirAux_isDir_mono p [] fs q h

theorem FS.addDir_isDir_self (fs : FS) (p : List String) :
    (fs.addDir p).isDir p = true := by
  unfold FS.addDir
  split
  · assumption
  · simp [FS.isDir, List.contains_cons]

theorem mkdirAux_isDir_self : ∀ (rest : List String), rest ≠ [] →
    ∀ (done : List String) (fs : FS),
      (mkdirAux fs done rest).isDir (done ++ rest) = true := by
  intro rest
  induction rest with
  | nil => intro h; exact absurd rfl h
  | cons c cs ih =>
    intro _ done fs
    cases cs with
    | nil =>
      simp only [mkdirAux]
      exact FS.addDir_isDir_self fs (done ++ [c])
    | cons c₂ cs₂ =>
      simp only [mkdirAux]
      rw [show done ++ c :: c₂ :: cs₂ = (done ++ [c]) ++ (c₂ :: cs₂) by simp]
      exact ih (by simp) (done ++ [c]) (fs.addDir (done ++ [c]))

theorem FS.mkdirAll_isDir_self (fs : FS) (p : List String) (h : p ≠ []) :
    (fs.mkdirAll p).isDir p = true := by
  have := mkdirAux_isDir_self p h [] fs
  simpa using this

theorem isChildOf_append_single (p : List String) (n : String) :
    isChildOf p (p ++ [n]) = true := by
  simp [isChildOf, List.take_left]

theorem hasFilePathB_writeFile (fs : FS) (p q : List String) (c : String)
    (h : hasFilePathB fs q = true) : hasFilePathB (fs.writeFile p c) q = true := by
  simp only [hasFilePathB, List.any_eq_true] at h ⊢
  obtain ⟨f, hf, hfq⟩ := h
  by_cases hqp : f.1 = p
  · refine ⟨(p, c), by simp [FS.writeFile], ?_⟩
    rw [← hqp]
    exact hfq
  · exact ⟨f, by simp [FS.writeFile, List.mem_filter, hf, hqp], hfq⟩

theorem hasFileChild_writeFile (fs : FS) (p t : List String) (c : String)
    (h : hasFileChild fs t = true) : hasFileChild (fs.writeFile p c) t = true := by
  simp only [hasFileChild, List.any_eq_true] at h ⊢
  obtain ⟨f, hf, hch⟩ := h
  by_cases hqp : f.1 = p
  · refine ⟨(p, c), by simp [FS.writeFile], ?_⟩
    rw [hqp] at hch
    exact hch
  · exact ⟨f, by simp [FS.writeFile, List.mem_filter, hf, hqp], hch⟩

theorem hasFileChild_hasChild (fs : FS) (t : List String)
    (h : hasFileChild fs t = true) : fs.hasChild t = true := by
  simp only [hasFileChild] at h
  simp [FS.hasChild, h]

theorem rmdir_eq_some (g : FS) (p : List String) (g' : FS)
    (h : g.rmdir p = some g') :
    g.hasChild p = false ∧ g' = ⟨g.dirs.erase p, g.files⟩ := by
  unfold FS.rmdir at h
  split at h
  · rename_i hcond
    simp only [Bool.and_eq_true, Bool.not_eq_true'] at hcond
    exact ⟨hcond.2, (Option.some_inj.mp h).symm⟩
  · exact absurd h (by simp)

theorem runDownloads_dirs (env : Env) (target : List String) (title : String) :
    ∀ (vs : List Video) (j : Nat) (fs : FS),
      ((runDownloads env target title j vs fs).1).dirs = fs.dirs := by
  intro vs
  induction vs with
  | nil => intro j fs; rfl
  | cons v vs ih =>
    intro j fs
    simp only [runDownloads, downloadSlotCode]
    cases hf : env.fetch (trailerUrl v.key) 0 with
    | true => simp [hf, ih, FS.writeFile]
    | false => simp [hf, ih]

theorem runDownloads_filePath (env : Env) (target : List String) (title : String)
    (q : List String) :
    ∀ (vs : List Video) (j : Nat) (fs : FS), hasFilePathB fs q = true →
      hasFilePathB ((runDownloads env target title j vs fs).1) q = true := by
  intro vs
  induction vs with
  | nil => intro j fs h; exact h
  | cons v vs ih =>
    intro j fs h
    simp only [runDownloads, downloadSlotCode]
    cases hf : env.fetch (trailerUrl v.key) 0 with
    | true =>
      simp only [hf, if_true]
      exact ih (j + 1) _ (hasFilePathB_writeFile fs _ q "video" h)
    | false =>
      simp only [hf, Bool.false_eq_true, if_false]
      exact ih (j + 1) fs h

theorem runDownloads_fileChild (env : Env) (target : List String) (title : String)
    (t : List String) :
    ∀ (vs : List Video) (j : Nat) (fs : FS), hasFileChild fs t = true →
      hasFileChild ((runDownloads env target title j vs fs).1) t = true := by
  intro vs
  induction vs with
  | nil => intro j fs h; exact h
  | cons v vs ih =>
    intro j fs h
    simp only [runDownloads, downloadSlotCode]
    cases hf : env.fetch (trailerUrl v.key) 0 with
    | true =>
      simp only [hf, if_true]
      exact ih (j + 1) _ (hasFileChild_writeFile fs _ t "video" h)
    | false =>
      simp only [hf, Bool.false_eq_true, if_false]
      exact ih (j + 1) fs h

theorem runDownloads_pos_child (env : Env) (target : List String) (title : String) :
    ∀ (vs : List Video) (j : Nat) (fs : FS),
      0 < (runDownloads env target title j vs fs).2 →
      hasFileChild ((runDownloads env target title j vs fs).1) target = true := by
  intro vs
  induction vs with
  | nil => intro j fs h; exact absurd h (by simp [runDownloads])
  | cons v vs ih =>
    intro j fs h
    simp only [runDownloads, downloadSlotCode] at h ⊢
    cases hf : env.fetch (trailerUrl v.key) 0 with
    | true =>
      simp only [hf, if_true]
      apply runDownloads_fileChild
      have hchild : hasFileChild (fs.writeFile (slotFile target title j) "video")
          target = true := by
        simp only [hasFileChild, List.any_eq_true]
        refine ⟨(slotFile target title j, "video"), by simp [FS.writeFile], ?_⟩
        simpa [slotFile] using isChildOf_append_single target
          (title ++ "-trailer-" ++ toString (j + 1) ++ ".%(ext)s")
      exact hchild
    | false =>
      simp only [hf, Bool.false_eq_true, if_false] at h ⊢
      exact ih (j + 1) fs h

theorem contains_erase_of_ne (l : List (List String)) (p q : List String)
    (h : l.contains q = true) (hne : q ≠ p) : (l.erase p).contains q = true := by
  have hm : q ∈ l := by simpa using h
  have : q ∈ l.erase p := (List.mem_erase_of_ne hne).mpr hm
  simpa using this

/-- A directory that has a regular-file child is never removed, and its
file child survives, across one `try:` block of the acquisition loop. -/
theorem processMovieTry_mark (cfg : Config) (env : Env) (fs : FS) (m : Movie)
    (rp : Option (List String)) (target t : List String)
    (hd : fs.isDir t = true) (hc : hasFileChild fs t = true) :
    (processMovieTry cfg env fs m rp target).1.isDir t = true ∧
    hasFileChild (processMovieTry cfg env fs m rp target).1 t = true := by
  simp only [processMovieTry]
  split
  · exact ⟨hd, hc⟩
  · have hd1 : (fs.mkdirAll target).isDir t = true :=
      FS.mkdirAll_isDir_mono fs target t hd
    have hc1 : hasFileChild (fs.mkdirAll target) t = true := by
      simp only [hasFileChild]
      rw [FS.mkdirAll_files]
      exact hc
    split
    · exact ⟨hd1, hc1⟩
    · have hdD : ((runDownloads env target m.title 0
          ((getMovieTrailers env m.id).take cfg.max_trailers_per_movie)
          (fs.mkdirAll target)).1).isDir t = true := by
        simp only [FS.isDir]
        rw [runDownloads_dirs]
        exact hd1
      have hcD : hasFileChild ((runDownloads env target m.title 0
          ((getMovieTrailers env m.id).take cfg.max_trailers_per_movie)
          (fs.mkdirAll target)).1) t = true :=
        runDownloads_fileChild env target m.title t _ 0 _ hc1
      split
      · split
        · constructor
          · simpa [FS.writeFile, FS.isDir] using hdD
          · exact hasFileChild_writeFile _ _ _ _ hcD
        · exact ⟨hdD, hcD⟩
      · split
        · exact ⟨hdD, hcD⟩
        · rename_i fs3 heq3
          have h3 : fs3.isDir t = true ∧ hasFileChild fs3 t = true := by
            split at heq3
            · obtain ⟨hnc, h3eq⟩ := rmdir_eq_some _ _ _ heq3
              subst h3eq
              have hneq : t ≠ target := by
                intro hEq
                rw [hEq] at hcD
                rw [hasFileChild_hasChild _ _ hcD] at hnc
                exact absurd hnc (by simp)
              refine ⟨?_, hcD⟩
              simp only [FS.isDir] at hdD ⊢
              exact contains_erase_of_ne _ _ _ hdD hneq
            · cases Option.some_inj.mp heq3
              exact ⟨hdD, hcD⟩
          split
          · exact h3
          · split
            · split
              · exact h3
              · rename_i fs4 heq4
                obtain ⟨hnc4, h4eq⟩ := rmdir_eq_some _ _ _ heq4
                subst h4eq
                have hneq4 : t ≠ target.dropLast := by
                  intro hEq
                  rw [hEq] at h3
                  rw [hasFileChild_hasChild _ _ h3.2] at hnc4
                  exact absurd hnc4 (by simp)
                refine ⟨?_, h3.2⟩
                simp only [FS.isDir] at h3 ⊢
                exact contains_erase_of_ne _ _ _ h3.1 hneq4
            · exact h3

/-- Regular-file paths are never deleted by one `try:` block. -/
theorem processMovieTry_filePath (cfg : Config) (env : Env) (fs : FS) (m : Movie)
    (rp : Option (List String)) (target q : List String)
    (hq : hasFilePathB fs q = true) :
    hasFilePathB (processMovieTry cfg env fs m rp target).1 q = true := by
  simp only [processMovieTry]
  split
  · exact hq
  · have hq1 : hasFilePathB (fs.mkdirAll target) q = true := by
      simp only [hasFilePathB]
      rw [FS.mkdirAll_files]
      exact hq
    split
    · exact hq1
    · have hqD : hasFilePathB ((runDownloads env target m.title 0
          ((getMovieTrailers env m.id).take cfg.max_trailers_per_movie)
          (fs.mkdirAll target)).1) q = true :=
        runDownloads_filePath env target m.title q _ 0 _ hq1
      split
      · split
        · exact hasFilePathB_writeFile _ _ _ _ hqD
        · exact hqD
      · split
        · exact hqD
        · rename_i fs3 heq3
          have h3 : hasFilePathB fs3 q = true := by
            split at heq3
            · obtain ⟨-, h3eq⟩ := rmdir_eq_some _ _ _ heq3
              subst h3eq
              exact hqD
            · cases Option.some_inj.mp heq3
              exact hqD
          split
          · exact h3
          · split
            · split
              · exact h3
              · rename_i fs4 heq4
                obtain ⟨-, h4eq⟩ := rmdir_eq_some _ _ _ heq4
                subst h4eq
                exact h3
            · exact h3

/-- One loop iteration preserves any established success footprint. -/
theorem processMovie_mark_preserved (cfg : Config) (env : Env) (fs : FS)
    (m' : Movie) (fs' : FS) (o : Outcome) (t : List String)
    (hd : fs.isDir t = true) (hc : hasFileChild fs t = true)
    (h : processMovie cfg env fs m' = some (fs', o)) :
    fs'.isDir t = true ∧ hasFileChild fs' t = true := by
  simp only [processMovie] at h
  split at h
  · split at h
    · exact absurd h (by simp)
    · split at h
      · obtain ⟨h1, -⟩ := Prod.mk.injEq .. ▸ Option.some_inj.mp h
        rw [← h1]
        exact ⟨hd, hc⟩
      · have h1 := (Option.some_inj.mp h)
        have hfs : fs' = (processMovieTry cfg env fs m'
            (targetPathOf cfg env fs m').1 (targetPathOf cfg env fs m').2).1 := by
          rw [h1]
        rw [hfs]
        exact processMovieTry_mark cfg env fs m' _ _ t hd hc
  · have h1 := (Option.some_inj.mp h)
    have hfs : fs' = (processMovieTry cfg env fs m'
        (targetPathOf cfg env fs m').1 (targetPathOf cfg env fs m').2).1 := by
      rw [h1]
    rw [hfs]
    exact processMovieTry_mark cfg env fs m' _ _ t hd hc

/-- One loop iteration never deletes a regular file path. -/
theorem processMovie_filePath (cfg : Config) (env : Env) (fs : FS)
    (m' : Movie) (fs' : FS) (o : Outcome) (q : List String)
    (hq : hasFilePathB fs q = true)
    (h : processMovie cfg env fs m' = some (fs', o)) :
    hasFilePathB fs' q = true := by
  simp only [processMovie] at h
  split at h
  · split at h
    · exact absurd h (by simp)
    · split at h
      · obtain ⟨h1, -⟩ := Prod.mk.injEq .. ▸ Option.some_inj.mp h
        rw [← h1]
        exact hq
      · have h1 := (Option.some_inj.mp h)
        have hfs : fs' = (processMovieTry cfg env fs m'
            (targetPathOf cfg env fs m').1 (targetPathOf cfg env fs m').2).1 := by
          rw [h1]
        rw [hfs]
        exact processMovieTry_filePath cfg env fs m' _ _ q hq
  · have h1 := (Option.some_inj.mp h)
    have hfs : fs' = (processMovieTry cfg env fs m'
        (targetPathOf cfg env fs m').1 (targetPathOf cfg env fs m').2).1 := by
      rw [h1]
    rw [hfs]
    exact processMovieTry_filePath cfg env fs m' _ _ q hq

/-- A `processed` outcome leaves the target directory with at least one
file in it. -/
theorem processMovieTry_processed (cfg : Config) (env : Env) (fs : FS) (m : Movie)
    (tgt : List String) (htne : tgt ≠ []) (fs' : FS)
    (h : processMovieTry cfg env fs m none tgt = (fs', Outcome.processed)) :
    fs'.isDir tgt = true ∧ hasFileChild fs' tgt = true := by
  simp only [processMovieTry] at h
  split at h
  · exact absurd h (by simp)
  · split at h
    · exact absurd h (by simp)
    · split at h
      · rename_i hpos
        obtain ⟨h1, -⟩ := Prod.mk.injEq .. ▸ h
        rw [← h1]
        constructor
        · have hself : (fs.mkdirAll tgt).isDir tgt = true :=
            FS.mkdirAll_isDir_self fs tgt htne
          simp only [FS.isDir, FS.writeFile]
          rw [runDownloads_dirs]
          exact hself
        · apply hasFileChild_writeFile
          exact runDownloads_pos_child env tgt m.title _ 0 _ hpos
      · exfalso
        split at h
        · exact absurd h (by simp)
        · split at h
          · split at h
            · exact absurd h (by simp)
            · exact absurd h (by simp)
          · exact absurd h (by simp)

theorem processMovie_processed_mark (cfg : Config) (env : Env) (fs : FS)
    (m : Movie) (fs' : FS) (hR : env.hasRadarr = false)
    (h : processMovie cfg env fs m = some (fs', Outcome.processed)) :
    successMark cfg m fs' := by
  have htp : targetPathOf cfg env fs m = (none, stagingTarget cfg m) := by
    simp [targetPathOf, shouldDownloadToRadarrFolder, hR, stagingTarget]
  have htne : stagingTarget cfg m ≠ [] := by simp [stagingTarget, upcomingPath]
  simp only [processMovie, htp] at h
  split at h
  · split at h
    · exact absurd h (by simp)
    · split at h
      · exact absurd h (by simp)
      · exact processMovieTry_processed cfg env fs m _ htne fs' (Option.some_inj.mp h)
  · exact processMovieTry_processed cfg env fs m _ htne fs' (Option.some_inj.mp h)

theorem processMovie_skip_of_mark (cfg : Config) (env : Env) (g : FS) (m : Movie)
    (hR : env.hasRadarr = false) (hm : successMark cfg m g) :
    processMovie cfg env g m = some (g, Outcome.skipped) := by
  have htp : targetPathOf cfg env g m = (none, stagingTarget cfg m) := by
    simp [targetPathOf, shouldDownloadToRadarrFolder, hR, stagingTarget]
  have hpe : g.pathExists (stagingTarget cfg m) = true := by
    simp [FS.pathExists, hm.1]
  have hch : g.hasChild (stagingTarget cfg m) = true :=
    hasFileChild_hasChild g _ hm.2
  simp only [processMovie, htp, hpe, if_true, hm.1, Bool.not_true,
    Bool.false_eq_true, if_false, hch]

theorem runMovies_mark_preserved (cfg : Config) (env : Env) (t : List String) :
    ∀ (ms : List Movie) (g g' : FS) (os : List Outcome),
      g.isDir t = true → hasFileChild g t = true →
      runMovies cfg env g ms = some (g', os) →
      g'.isDir t = true ∧ hasFileChild g' t = true := by
  intro ms
  induction ms with
  | nil =>
    intro g g' os hd hc h
    simp only [runMovies, Option.some_inj, Prod.mk.injEq] at h
    rw [← h.1]
    exact ⟨hd, hc⟩
  | cons m ms ih =>
    intro g g' os hd hc h
    simp only [runMovies] at h
    split at h
    · exact absurd h (by simp)
    · rename_i g₁ o hp
      split at h
      · exact absurd h (by simp)
      · rename_i g₂ os₂ hr
        simp only [Option.some_inj, Prod.mk.injEq] at h
        have step := processMovie_mark_preserved cfg env g m g₁ o t hd hc hp
        have := ih g₁ g₂ os₂ step.1 step.2 hr
        rw [← h.1]
        exact this

theorem runMovies_filePath (cfg : Config) (env : Env) (q : List String) :
    ∀ (ms : List Movie) (g g' : FS) (os : List Outcome),
      hasFilePathB g q = true →
      runMovies cfg env g ms = some (g', os) →
      hasFilePathB g' q = true := by
  intro ms
  induction ms with
  | nil =>
    intro g g' os hq h
    simp only [runMovies, Option.some_inj, Prod.mk.injEq] at h
    rw [← h.1]
    exact hq
  | cons m ms ih =>
    intro g g' os hq h
    simp only [runMovies] at h
    split at h
    · exact absurd h (by simp)
    · rename_i g₁ o hp
      split at h
      · exact absurd h (by simp)
      · rename_i g₂ os₂ hr
        simp only [Option.some_inj, Prod.mk.injEq] at h
        have step := processMovie_filePath cfg env g m g₁ o q hq hp
        have := ih g₁ g₂ os₂ step hr
        rw [← h.1]
        exact this

theorem runMovies_processed_mark (cfg : Config) (env : Env)
    (hR : env.hasRadarr = false) (m : Movie) :
    ∀ (ms : List Movie) (g g' : FS) (os : List Outcome) (i : Nat),
      runMovies cfg env g ms = some (g', os) →
      ms.get? i = some m → os.get? i = some Outcome.processed →
      successMark cfg m g' := by
  intro ms
  induction ms with
  | nil =>
    intro g g' os i h hm ho
    simp at hm
  | cons m₀ ms ih =>
    intro g g' os i h hm ho
    simp only [runMovies] at h
    split at h
    · exact absurd h (by simp)
    · rename_i g₁ o hp
      split at h
      · exact absurd h (by simp)
      · rename_i g₂ os₂ hr
        simp only [Option.some_inj, Prod.mk.injEq] at h
        obtain ⟨hg, hos⟩ := h
        cases i with
        | zero =>
          simp only [List.get?_cons_zero, Option.some_inj] at hm
          rw [← hos] at ho
          simp only [List.get?_cons_zero, Option.some_inj] at ho
          rw [hm] at hp
          rw [ho] at hp
          have mark1 := processMovie_processed_mark cfg env g m g₁ hR hp
          have := runMovies_mark_preserved cfg env (stagingTarget cfg m) ms
            g₁ g₂ os₂ mark1.1 mark1.2 hr
          rw [← hg]
          exact this
        | succ i' =>
          rw [← hos] at ho
          simp only [List.get?_cons_succ] at hm ho
          rw [← hg]
          exact ih g₁ g₂ os₂ i' hr hm ho

theorem runMovies_skip_all (cfg : Config) (env : Env)
    (hR : env.hasRadarr = false) (m : Movie) :
    ∀ (ms : List Movie) (g g' : FS) (os : List Outcome) (i : Nat),
      runMovies cfg env g ms = some (g', os) →
      ms.get? i = some m → successMark cfg m g →
      os.get? i = some Outcome.skipped := by
  intro ms
  induction ms with
  | nil =>
    intro g g' os i h hm hmark
    simp at hm
  | cons m₀ ms ih =>
    intro g g' os i h hm hmark
    simp only [runMovies] at h
    split at h
    · exact absurd h (by simp)
    · rename_i g₁ o hp
      split at h
      · exact absurd h (by simp)
      · rename_i g₂ os₂ hr
        simp only [Option.some_inj, Prod.mk.injEq] at h
        obtain ⟨hg, hos⟩ := h
        cases i with
        | zero =>
          simp only [List.get?_cons_zero, Option.some_inj] at hm
          rw [hm] at hp
          have hskip := processMovie_skip_of_mark cfg env g m hR hmark
          rw [hskip] at hp
          simp only [Option.some_inj, Prod.mk.injEq] at hp
          rw [← hos]
          simp [hp.2]
        | succ i' =>
          simp only [List.get?_cons_succ] at hm
          have step := processMovie_mark_preserved cfg env g m₀ g₁ o
            (stagingTarget cfg m) hmark.1 hmark.2 hp
          rw [← hos]
          simp only [List.get?_cons_succ]
          exact ih g₁ g₂ os₂ i' hr hm ⟨step.1, step.2⟩

/-! ## C5 — idempotence -/

/-- C5: a candidate whose target trailer directory already exists and
holds at least one entry is skipped with no filesystem change; and
(without a Radarr path override) running the acquisition loop twice on
the same candidate list makes the second run report every first-run
success as skipped, while every file present after the first run is
still present after the second. -/
theorem C5_idempotence (cfg : Config) (env : Env) :
    (∀ (fs : FS) (m : Movie),
      fs.pathExists ((targetPathOf cfg env fs m).2) = true →
      fs.isDir ((targetPathOf cfg env fs m).2) = true →
      fs.hasChild ((targetPathOf cfg env fs m).2) = true →
      processMovie cfg env fs m = some (fs, Outcome.skipped)) ∧
    (env.hasRadarr = false →
      ∀ (ms : List Movie) (fs fs₁ fs₂ : FS) (outs₁ outs₂ : List Outcome),
        runMovies cfg env fs ms = some (fs₁, outs₁) →
        runMovies cfg env fs₁ ms = some (fs₂, outs₂) →
        (∀ i m, ms.get? i = some m → outs₁.get? i = some Outcome.processed →
          outs₂.get? i = some Outcome.skipped) ∧
        (∀ q, hasFilePathB fs₁ q = true → hasFilePathB fs₂ q = true)) := by
  constructor
  · intro fs m hpe hdir hch
    simp only [processMovie, hpe, if_true, hdir, Bool.not_true,
      Bool.false_eq_true, if_false, hch]
  · intro hR ms fs fs₁ fs₂ outs₁ outs₂ h1 h2
    constructor
    · intro i m hm ho
      have hmark : successMark cfg m fs₁ :=
        runMovies_processed_mark cfg env hR m ms fs fs₁ outs₁ i h1 hm ho
      exact runMovies_skip_all cfg env hR m ms fs₁ fs₂ outs₂ i h2 hm hmark
    · intro q hq
      exact runMovies_filePath cfg env q ms fs₁ fs₂ outs₂ hq h2

/-- Witness for C5 on a concrete pair of runs: the first run processes
`mOrch` successfully, the second reports it skipped and keeps its
trailer file. -/
theorem C5_idempotence_witness :
    ([Outcome.skipped].get? 0 = some Outcome.skipped) ∧
    hasFilePathB fsAfterOk (slotFile tgtOrch "M" 0) = true :=
  ⟨((C5_idempotence cfgUpcoming envOk).2 rfl [mOrch] fsBase fsAfterOk fsAfterOk
      [Outcome.processed] [Outcome.skipped] (by decide) (by decide)).1
      0 mOrch rfl rfl,
   ((C5_idempotence cfgUpcoming envOk).2 rfl [mOrch] fsBase fsAfterOk fsAfterOk
      [Outcome.processed] [Outcome.skipped] (by decide) (by decide)).2
      (slotFile tgtOrch "M" 0) (by decide)⟩

end Tmdb
